import Mathlib

/-!
Verification of the `ralph_wiggum` audit-pipeline against its specification.

The development shallowly embeds the Python modules `invariants.py`,
`tools/runner_pool.py`, `scoring.py`, `agents/fuzz_agent.py`,
`agents/repair_agent.py`, `reporting.py` and `kernel.py`.

Modelling conventions:
* Python values are embedded as the inductive type `Val` (JSON-like data:
  `None`, booleans, integers, strings, lists, dicts).  Python dicts are
  insertion-ordered association lists with unique keys; lookups take the
  first matching key, updates replace in place or append at the end,
  exactly as CPython dicts behave.
* Numbers are modelled as `Int` (every numeric literal in the repository's
  state records is an integer; Python `bool` participates in comparisons
  as 0/1, which `Val.numVal?` reproduces).
* A Python run that raises (TypeError / AttributeError / KeyError) is
  modelled by `Option`: `none` means the corresponding Python call raises.
* Filesystem probes (`Path.exists`) and external subprocess/network calls
  are effects outside the repository; they are passed in as explicit
  function parameters.
-/

/-- Embedded Python value (the JSON-like data the state record is made of). -/
inductive Val where
  | vnull : Val
  | vbool : Bool → Val
  | vint : Int → Val
  | vstr : String → Val
  | vlist : List Val → Val
  | vdict : List (String × Val) → Val
deriving Repr

mutual

def Val.decEq : (a b : Val) → Decidable (a = b)
  | .vnull, .vnull => isTrue rfl
  | .vnull, .vbool _ => isFalse nofun
  | .vnull, .vint _ => isFalse nofun
  | .vnull, .vstr _ => isFalse nofun
  | .vnull, .vlist _ => isFalse nofun
  | .vnull, .vdict _ => isFalse nofun
  | .vbool _, .vnull => isFalse nofun
  | .vbool a, .vbool b =>
      if h : a = b then isTrue (by rw [h])
      else isFalse (fun heq => h (by cases heq; rfl))
  | .vbool _, .vint _ => isFalse nofun
  | .vbool _, .vstr _ => isFalse nofun
  | .vbool _, .vlist _ => isFalse nofun
  | .vbool _, .vdict _ => isFalse nofun
  | .vint _, .vnull => isFalse nofun
  | .vint _, .vbool _ => isFalse nofun
  | .vint a, .vint b =>
      if h : a = b then isTrue (by rw [h])
      else isFalse (fun heq => h (by cases heq; rfl))
  | .vint _, .vstr _ => isFalse nofun
  | .vint _, .vlist _ => isFalse nofun
  | .vint _, .vdict _ => isFalse nofun
  | .vstr _, .vnull => isFalse nofun
  | .vstr _, .vbool _ => isFalse nofun
  | .vstr _, .vint _ => isFalse nofun
  | .vstr a, .vstr b =>
      if h : a = b then isTrue (by rw [h])
      else isFalse (fun heq => h (by cases heq; rfl))
  | .vstr _, .vlist _ => isFalse nofun
  | .vstr _, .vdict _ => isFalse nofun
  | .vlist _, .vnull => isFalse nofun
  | .vlist _, .vbool _ => isFalse nofun
  | .vlist _, .vint _ => isFalse nofun
  | .vlist _, .vstr _ => isFalse nofun
  | .vlist xs, .vlist ys =>
      match Val.decEqList xs ys with
      | isTrue h => isTrue (by rw [h])
      | isFalse h => isFalse (fun heq => h (by cases heq; rfl))
  | .vlist _, .vdict _ => isFalse nofun
  | .vdict _, .vnull => isFalse nofun
  | .vdict _, .vbool _ => isFalse nofun
  | .vdict _, .vint _ => isFalse nofun
  | .vdict _, .vstr _ => isFalse nofun
  | .vdict _, .vlist _ => isFalse nofun
  | .vdict xs, .vdict ys =>
      match Val.decEqPairs xs ys with
      | isTrue h => isTrue (by rw [h])
      | isFalse h => isFalse (fun heq => h (by cases heq; rfl))

def Val.decEqList : (xs ys : List Val) → Decidable (xs = ys)
  | [], [] => isTrue rfl
  | [], _ :: _ => isFalse nofun
  | _ :: _, [] => isFalse nofun
  | x :: xs, y :: ys =>
      match Val.decEq x y with
      | isFalse h => isFalse (fun heq => h (by cases heq; rfl))
      | isTrue h1 =>
          match Val.decEqList xs ys with
          | isTrue h2 => isTrue (by rw [h1, h2])
          | isFalse h2 => isFalse (fun heq => h2 (by cases heq; rfl))

def Val.decEqPairs : (xs ys : List (String × Val)) → Decidable (xs = ys)
  | [], [] => isTrue rfl
  | [], _ :: _ => isFalse nofun
  | _ :: _, [] => isFalse nofun
  | (k, x) :: xs, (l, y) :: ys =>
      if hk : k = l then
        match Val.decEq x y with
        | isFalse h => isFalse (fun heq => h (by cases heq; rfl))
        | isTrue hx =>
            match Val.decEqPairs xs ys with
            | isTrue h2 => isTrue (by rw [hk, hx, h2])
            | isFalse h2 => isFalse (fun heq => h2 (by cases heq; rfl))
      else isFalse (fun heq => hk (by cases heq; rfl))

end

instance : DecidableEq Val := Val.decEq

/-- First-match association-list lookup: Python `d[k]` / `k in d` backing. -/
def assocGet : List (String × Val) → String → Option Val
  | [], _ => none
  | (k, v) :: rest, key => if k = key then some v else assocGet rest key

/-- Python `d[k] = v`: replace the first binding of `k`, else append. -/
def assocSet : List (String × Val) → String → Val → List (String × Val)
  | [], key, v => [(key, v)]
  | (k, w) :: rest, key, v =>
      if k = key then (k, v) :: rest else (k, w) :: assocSet rest key v

/-- Python `d.get(k)` (missing key yields `None`). -/
def pyGet (d : List (String × Val)) (k : String) : Val :=
  (assocGet d k).getD .vnull

/-- Python `d.get(k, default)` (the default fires only when the key is absent). -/
def pyGetD (d : List (String × Val)) (k : String) (dflt : Val) : Val :=
  (assocGet d k).getD dflt

/-- Python truthiness (`bool(v)`). -/
def Val.truthy : Val → Bool
  | .vnull => false
  | .vbool b => b
  | .vint n => decide (n ≠ 0)
  | .vstr s => decide (s ≠ "")
  | .vlist xs => decide (xs ≠ [])
  | .vdict kvs => decide (kvs ≠ [])

/-- `isinstance(v, dict)`. -/
def Val.isDict : Val → Bool
  | .vdict _ => true
  | _ => false

/-- `isinstance(v, list)`. -/
def Val.isList : Val → Bool
  | .vlist _ => true
  | _ => false

/-- `isinstance(v, str)`. -/
def Val.isStr : Val → Bool
  | .vstr _ => true
  | _ => false

/-- Numeric view used by Python comparisons: ints, and bools as 0/1. -/
def Val.numVal? : Val → Option Int
  | .vint n => some n
  | .vbool b => some (if b then 1 else 0)
  | _ => none

/-- Code-point lexicographic `<` on character lists (CPython `str.__lt__`). -/
def charListLt : List Char → List Char → Bool
  | _, [] => false
  | [], _ :: _ => true
  | a :: as, b :: bs => if a < b then true else if a = b then charListLt as bs else false

/-- Python string `<`. -/
def strLt (a b : String) : Bool := charListLt a.data b.data

/-- Keys of the first mapping that are present in the second. -/
def keysSub (a b : List (String × Val)) : Bool :=
  a.all fun kv => (assocGet b kv.fst).isSome

mutual

/-- Python `==` on state values (total, never raises): `None` equals only
itself, numbers numerically (`True == 1`), strings structurally, lists
pointwise, dicts as key-to-value maps, everything else unequal. -/
def pyEq : Val → Val → Bool
  | .vnull, .vnull => true
  | .vbool a, .vbool b => decide (a = b)
  | .vbool a, .vint n => decide ((if a then (1 : Int) else 0) = n)
  | .vint m, .vbool b => decide (m = (if b then (1 : Int) else 0))
  | .vint m, .vint n => decide (m = n)
  | .vstr a, .vstr b => decide (a = b)
  | .vlist xs, .vlist ys => pyEqList xs ys
  | .vdict a, .vdict b => pyEqPairs a b && keysSub b a
  | _, _ => false

/-- Pointwise `==` on list elements (with equal lengths). -/
def pyEqList : List Val → List Val → Bool
  | [], [] => true
  | x :: xs, y :: ys => pyEq x y && pyEqList xs ys
  | _, _ => false

/-- Every binding of the first mapping is matched by `==` in the second. -/
def pyEqPairs : List (String × Val) → List (String × Val) → Bool
  | [], _ => true
  | (k, v) :: rest, b =>
      (match assocGet b k with
       | some w => pyEq v w
       | none => false) && pyEqPairs rest b

end

mutual

/-- Python `a < b` on state values: numbers numerically (bools as 0/1),
strings and lists lexicographically; `None`, dicts and mixed-type
operands raise `TypeError` (`none`). -/
def pyLt : Val → Val → Option Bool
  | .vstr a, .vstr b => some (strLt a b)
  | .vlist xs, .vlist ys => pyListLt xs ys
  | a, b =>
      match a.numVal?, b.numVal? with
      | some m, some n => some (decide (m < n))
      | _, _ => none

/-- CPython list comparison: skip `==`-equal prefixes, then compare the
first differing elements (shorter list first on exhausted prefix). -/
def pyListLt : List Val → List Val → Option Bool
  | [], [] => some false
  | [], _ :: _ => some true
  | _ :: _, [] => some false
  | x :: xs, y :: ys => if pyEq x y then pyListLt xs ys else pyLt x y

end

/-- Python `a > b`. -/
def pyGt (a b : Val) : Option Bool := pyLt b a

/-! ## `invariants.py` -/

/-- `_check_budget`: returns the errors it appends together with the
mutated state (the function writes `budget["last_spent"] = spent`).
`none` models a `TypeError` from an ill-typed comparison. -/
def checkBudget (kvs : List (String × Val)) :
    Option (List String × List (String × Val)) :=
  match pyGet kvs "budget" with
  | .vdict b =>
      let spent := pyGet b "spent"
      let cap := pyGet b "cap"
      let lastSpent := pyGetD b "last_spent" spent
      if spent = .vnull then some ([], kvs)
      else
        match (if lastSpent ≠ .vnull then pyLt spent lastSpent else some false) with
        | none => none
        | some dec =>
            match (if cap ≠ .vnull then pyGt spent cap else some false) with
            | none => none
            | some exc =>
                some ((if dec then ["Budget spent decreased from previous value."] else [])
                  ++ (if exc then ["Budget spent exceeds budget cap."] else []),
                  assocSet kvs "budget" (.vdict (assocSet b "last_spent" spent)))
  | _ => some ([], kvs)

/-- `_check_escalation`: errors plus the mutated state
(`state["escalation_previous"] = current`). -/
def checkEscalation (kvs : List (String × Val)) :
    Option (List String × List (String × Val)) :=
  let current := pyGet kvs "escalation_level"
  if current = .vnull then some ([], kvs)
  else
    match pyLt current (pyGetD kvs "escalation_previous" current) with
    | none => none
    | some dec =>
        some ((if dec && ! (pyGet kvs "escalation_reason").truthy
          then ["Escalation level decreased without justification."] else []),
          assocSet kvs "escalation_previous" current)

/-- The per-finding provenance error messages of `_check_findings`. -/
def findingErrsAt (idx : Nat) : Val → List String
  | .vdict d =>
      (["source_tool", "artifact_paths", "confidence"].filter
        fun field => (assocGet d field).isNone).map
        fun field => "Finding " ++ toString idx ++ " missing provenance field: " ++ field ++ "."
  | _ => ["Finding " ++ toString idx ++ " is not a mapping."]

/-- The enumeration loop of `_check_findings`. -/
def findingErrsFrom (idx : Nat) : List Val → List String
  | [] => []
  | f :: rest => findingErrsAt idx f ++ findingErrsFrom (idx + 1) rest

/-- `_check_findings` (read-only).  `none` models the `AttributeError`
raised when `state["static_scan"]` is present but not a mapping. -/
def checkFindings (kvs : List (String × Val)) : Option (List String) :=
  match pyGetD kvs "static_scan" (.vdict []) with
  | .vdict s =>
      some (findingErrsFrom 0
        ((match pyGet kvs "findings" with
          | .vlist xs => xs
          | _ => [])
        ++ (match pyGet s "findings" with
            | .vlist xs => xs
            | _ => [])))
  | _ => none

/-- Error messages of one capability bucket of `_check_capabilities`. -/
def capBucketErrs (bucket : String) (v : Val) : List String :=
  match v with
  | .vlist entries =>
      entries.flatMap fun entry =>
        match entry with
        | .vstr _ => []
        | .vdict d =>
            if (assocGet d "name").isNone || (assocGet d "reason").isNone
            then ["Capabilities " ++ bucket ++ " entry missing name/reason."]
            else []
        | _ => ["Capabilities " ++ bucket ++ " entry is not a mapping."]
  | _ => ["Capabilities " ++ bucket ++ " is not a list."]

/-- `_check_capabilities` (read-only, total). -/
def checkCapabilities (kvs : List (String × Val)) : List String :=
  match pyGet kvs "capabilities" with
  | .vdict c =>
      if (assocGet c "executed").isNone || (assocGet c "skipped").isNone
      then ["Capabilities missing executed/skipped lists."]
      else capBucketErrs "executed" (pyGetD c "executed" (.vlist []))
        ++ capBucketErrs "skipped" (pyGetD c "skipped" (.vlist []))
  | _ => ["Capabilities section missing from state."]

/-- `validate_state`: all four checks in order, errors concatenated,
bookkeeping mutations applied.  `none` models a raised exception
(including a non-dict argument). -/
def validateState (v : Val) : Option (List String × Val) :=
  match v with
  | .vdict kvs =>
      match checkBudget kvs with
      | none => none
      | some (b, kvs₁) =>
          match checkEscalation kvs₁ with
          | none => none
          | some (e, kvs₂) =>
              match checkFindings kvs₂ with
              | none => none
              | some f => some (b ++ e ++ f ++ checkCapabilities kvs₂, .vdict kvs₂)
  | _ => none

/-! ## A stable sort (the model of Python `sorted`)

CPython `sorted` is a stable sort; insertion sort below places an element
before the first strictly-greater element, which reproduces stability for
`sorted(xs, key=...)`. -/

/-- Stable insertion of `a` into `l` (before the first `b` with `le a b`). -/
def insertLe (le : α → α → Bool) (a : α) : List α → List α
  | [] => [a]
  | b :: bs => if le a b then a :: b :: bs else b :: insertLe le a bs

/-- Stable insertion sort: the model of Python `sorted(l, key=...)`. -/
def sortByLe (le : α → α → Bool) : List α → List α
  | [] => []
  | a :: as => insertLe le a (sortByLe le as)

/-- One slot of a Python sort key (the repository's keys are tuples of
ints and strings). -/
inductive PyKey where
  | kInt (n : Int)
  | kStr (s : String)
deriving DecidableEq, Repr

/-- `true` for int slots, `false` for string slots. -/
def PyKey.shape : PyKey → Bool
  | .kInt _ => true
  | .kStr _ => false

/-- `<` on one key slot.  Comparing an int slot with a string slot raises
in Python; every sort key in the repository has a fixed slot shape, so the
cross cases (modelled as `false`) are unreachable. -/
def pyKeyLt : PyKey → PyKey → Bool
  | .kInt a, .kInt b => decide (a < b)
  | .kStr a, .kStr b => strLt a b
  | _, _ => false

/-- Lexicographic `<=` on key tuples (Python tuple comparison). -/
def pyKeyListLe : List PyKey → List PyKey → Bool
  | [], _ => true
  | _ :: _, [] => false
  | a :: as, b :: bs =>
      if pyKeyLt a b then true else if a = b then pyKeyListLe as bs else false

/-- Python `sorted(l, key=key)`. -/
def sortPyKeys (key : α → List PyKey) (l : List α) : List α :=
  sortByLe (fun a b => pyKeyListLe (key a) (key b)) l

/-! ## Python string coercion (`str(v)`)

`str` on lists/dicts produces the `repr` form; `repr` of strings is
modelled without CPython's escaping of quotes and control characters
(the repository's field values are plain text, where the two agree). -/

/-- `", ".join(parts)`. -/
def joinComma (parts : List String) : String :=
  String.intercalate ", " parts

mutual

/-- Python `repr(v)`. -/
def pyRepr : Val → String
  | .vnull => "None"
  | .vbool b => if b then "True" else "False"
  | .vint n => toString n
  | .vstr s => "\x27" ++ s ++ "\x27"
  | .vlist xs => "[" ++ joinComma (pyReprList xs) ++ "]"
  | .vdict kvs => "\x7b" ++ joinComma (pyReprPairs kvs) ++ "\x7d"

def pyReprList : List Val → List String
  | [] => []
  | x :: xs => pyRepr x :: pyReprList xs

def pyReprPairs : List (String × Val) → List String
  | [] => []
  | (k, v) :: rest => ("\x27" ++ k ++ "\x27: " ++ pyRepr v) :: pyReprPairs rest

end

/-- Python `str(v)`. -/
def pyStr : Val → String
  | .vnull => "None"
  | .vbool b => if b then "True" else "False"
  | .vint n => toString n
  | .vstr s => s
  | v => pyRepr v

/-! ## `tools/runner_pool.py` -/

/-- `ToolResult`: output of one tool execution. -/
structure ToolResult where
  name : String
  artifacts : List String
  findings : List Val
  payload : Option Val
deriving DecidableEq, Repr

/-- `ToolJob`: a named unit of work.  Its `runner` is an effect-free
callable; `result` is the `ToolResult` that invoking it produces. -/
structure ToolJob where
  name : String
  result : ToolResult
deriving DecidableEq, Repr

/-- The six-field composite sort key of `RunnerPool._finding_sort_key`,
string-coerced and compared lexicographically (Python tuple `<`).
(`sorted` computes keys for all elements, so a non-mapping finding raises;
callers guard that case and the non-mapping branch below is unreachable.) -/
def findingSortKey (f : Val) : List PyKey :=
  match f with
  | .vdict d =>
      [.kStr (pyStr (pyGetD d "source_tool" (.vstr ""))),
       .kStr (pyStr (pyGetD d "category" (.vstr ""))),
       .kStr (pyStr (pyGetD d "check" (.vstr ""))),
       .kStr (pyStr (pyGetD d "description" (.vstr ""))),
       .kStr (pyStr (pyGetD d "path" (.vstr ""))),
       .kStr (pyStr (pyGetD d "lines" (.vstr "")))]
  | _ => [.kStr "", .kStr "", .kStr "", .kStr "", .kStr "", .kStr ""]

/-- `RunnerPool.run`.  `completion` is the order in which `as_completed`
yields the parallel results (an arbitrary permutation of the job results);
the sequential branch evaluates runners in submission order.  Both branches
end with a stable sort by result name. -/
def poolRun (parallel : Bool) (jobs : List ToolJob) (completion : List ToolResult) :
    List ToolResult :=
  if !parallel || jobs.length ≤ 1 then
    sortPyKeys (fun r => [.kStr r.name]) (jobs.map ToolJob.result)
  else
    sortPyKeys (fun r => [.kStr r.name]) completion

/-- `RunnerPool.merge_artifacts`: set-deduplicate, then sort.  The Python
set's iteration order is irrelevant because `sorted` canonicalises it. -/
def mergeArtifacts (results : List ToolResult) : List String :=
  sortPyKeys (fun a => [.kStr a]) ((results.flatMap ToolResult.artifacts).eraseDups)

/-- `RunnerPool.merge_findings`.  CPython `sorted(.., key=..)` computes the
key of every element up front, so a single non-mapping finding raises
(`AttributeError`), modelled by `none`. -/
def mergeFindings (results : List ToolResult) : Option (List Val) :=
  let fs := results.flatMap ToolResult.findings
  if fs.all Val.isDict then some (sortPyKeys findingSortKey fs)
  else none

/-! ## SHA-256 (`hashlib.sha256(...).hexdigest()`)

Implemented over `Nat` with explicit `% 2^32`.  The round constants are
derived, as in the FIPS 180-4 definition, from the fractional parts of the
cube/square roots of the first 64 primes; `sha256Hex` reproduces the
standard test vectors (see the `sha256Hex_abc_vector` theorem). -/

def w32 (x : Nat) : Nat := x % 4294967296

def rotr (n x : Nat) : Nat := w32 ((x >>> n) ||| (x <<< (32 - n)))

def icbrtGo : Nat → Nat → Nat → Nat → Nat
  | 0, lo, _, _ => lo
  | fuel + 1, lo, hi, n =>
      if hi ≤ lo + 1 then lo
      else
        let mid := (lo + hi) / 2
        if mid ^ 3 ≤ n then icbrtGo fuel mid hi n else icbrtGo fuel lo mid n

/-- Integer cube root (binary search; fuel 200 covers all inputs used). -/
def icbrt (n : Nat) : Nat := icbrtGo 200 0 (n + 2) n

def isqrtGo : Nat → Nat → Nat → Nat → Nat
  | 0, lo, _, _ => lo
  | fuel + 1, lo, hi, n =>
      if hi ≤ lo + 1 then lo
      else
        let mid := (lo + hi) / 2
        if mid ^ 2 ≤ n then isqrtGo fuel mid hi n else isqrtGo fuel lo mid n

/-- Integer square root (kernel-reducible, unlike `Nat.sqrt`). -/
def isqrt (n : Nat) : Nat := isqrtGo 200 0 (n + 2) n

def first64Primes : List Nat :=
  [2, 3, 5, 7, 11, 13, 17, 19, 23, 29, 31, 37, 41, 43, 47, 53,
   59, 61, 67, 71, 73, 79, 83, 89, 97, 101, 103, 107, 109, 113, 127, 131,
   137, 139, 149, 151, 157, 163, 167, 173, 179, 181, 191, 193, 197, 199, 211, 223,
   227, 229, 233, 239, 241, 251, 257, 263, 269, 271, 277, 281, 283, 293, 307, 311]

/-- Round constants: fractional cube roots of the first 64 primes. -/
def sha256K : List Nat :=
  first64Primes.map fun p => icbrt (p * 2 ^ 96) % 4294967296

/-- Initial hash state: fractional square roots of the first 8 primes. -/
def sha256H0 : List Nat :=
  (first64Primes.take 8).map fun p => isqrt (p * 2 ^ 64) % 4294967296

def bsig0 (x : Nat) : Nat := rotr 2 x ^^^ rotr 13 x ^^^ rotr 22 x

def bsig1 (x : Nat) : Nat := rotr 6 x ^^^ rotr 11 x ^^^ rotr 25 x

def ssig0 (x : Nat) : Nat := rotr 7 x ^^^ rotr 18 x ^^^ (x >>> 3)

def ssig1 (x : Nat) : Nat := rotr 17 x ^^^ rotr 19 x ^^^ (x >>> 10)

def chF (x y z : Nat) : Nat := (x &&& y) ^^^ ((x ^^^ 4294967295) &&& z)

def majF (x y z : Nat) : Nat := (x &&& y) ^^^ (x &&& z) ^^^ (y &&& z)

/-- `k`-byte big-endian encoding of `x`. -/
def beBytes (k x : Nat) : List Nat :=
  (List.range k).map fun i => (x >>> (8 * (k - 1 - i))) % 256

def beWord (block : List Nat) (j : Nat) : Nat :=
  block.getD (4 * j) 0 * 16777216 + block.getD (4 * j + 1) 0 * 65536 +
    block.getD (4 * j + 2) 0 * 256 + block.getD (4 * j + 3) 0

/-- The 64-word message schedule of one block. -/
def sched (block : List Nat) : List Nat :=
  (List.range 64).foldl
    (fun ws t =>
      ws ++ [if t < 16 then beWord block t
        else w32 (ssig1 (ws.getD (t - 2) 0) + ws.getD (t - 7) 0 +
          ssig0 (ws.getD (t - 15) 0) + ws.getD (t - 16) 0)])
    []

/-- One SHA-256 compression round applied 64 times, plus the final add. -/
def compressBlock (h0 : List Nat) (block : List Nat) : List Nat :=
  let ws := sched block
  let step := fun (st : List Nat) (t : Nat) =>
    let a := st.getD 0 0
    let b := st.getD 1 0
    let c := st.getD 2 0
    let d := st.getD 3 0
    let e := st.getD 4 0
    let f := st.getD 5 0
    let g := st.getD 6 0
    let hh := st.getD 7 0
    let t1 := w32 (hh + bsig1 e + chF e f g + sha256K.getD t 0 + ws.getD t 0)
    let t2 := w32 (bsig0 a + majF a b c)
    [w32 (t1 + t2), a, b, c, w32 (d + t1), e, f, g]
  let out := (List.range 64).foldl step h0
  List.zipWith (fun x y => w32 (x + y)) h0 out

/-- SHA-256 of a byte sequence. -/
def sha256Bytes (m : List Nat) : List Nat :=
  let padZeros := (64 - (m.length + 9) % 64) % 64
  let padded := m ++ 128 :: (List.replicate padZeros 0 ++ beBytes 8 (8 * m.length))
  let nb := padded.length / 64
  let hFinal := (List.range nb).foldl
    (fun h i => compressBlock h ((padded.drop (64 * i)).take 64)) sha256H0
  hFinal.flatMap (beBytes 4)

/-- UTF-8 encoding of one character (`str.encode("utf-8")`). -/
def utf8Char (c : Char) : List Nat :=
  let n := c.toNat
  if n < 128 then [n]
  else if n < 2048 then [192 + n / 64, 128 + n % 64]
  else if n < 65536 then [224 + n / 4096, 128 + n / 64 % 64, 128 + n % 64]
  else [240 + n / 262144, 128 + n / 4096 % 64, 128 + n / 64 % 64, 128 + n % 64]

def utf8Bytes (s : String) : List Nat := s.data.flatMap utf8Char

def hexDigitChar (n : Nat) : Char := "0123456789abcdef".toList.getD n (Char.ofNat 48)

def toHexStr (bs : List Nat) : String :=
  String.mk (bs.flatMap fun b => [hexDigitChar (b / 16), hexDigitChar (b % 16)])

/-- `hashlib.sha256(s.encode("utf-8")).hexdigest()`. -/
def sha256Hex (s : String) : String := toHexStr (sha256Bytes (utf8Bytes s))

/-! ## `scoring.py` -/

/-- Python `a or b`. -/
def pyOr (a b : Val) : Val := if a.truthy then a else b

/-- Substring containment (Python `pat in s`). -/
def strContains (s pat : String) : Bool := decide (pat.toList <:+: s.toList)

/-- Python iteration (`for x in v`): lists yield elements, strings yield
1-character strings, dicts yield their keys; other values raise. -/
def iterElems : Val → Option (List Val)
  | .vlist xs => some xs
  | .vstr s => some (s.data.map fun c => .vstr (String.singleton c))
  | .vdict kvs => some (kvs.map fun kv => Val.vstr kv.1)
  | _ => none

/-- Python `v[0]` (used on `artifact_paths[0]`); raises on non-sequences
and on empty sequences. -/
def pyIndex0 : Val → Option Val
  | .vlist (x :: _) => some x
  | .vstr s =>
      match s.data with
      | c :: _ => some (.vstr (String.singleton c))
      | [] => none
  | _ => none

/-- `ScoreWeights` (dataclass): the lookup tables are Python dicts. -/
structure ScoreWeights where
  severity : List (String × Int)
  confidence : List (String × Int)
  evidence : Int := 2
  repro : Int := 1
  missing_evidence_penalty : Int := 1
  skipped_capability_penalty : Int := 1
deriving Repr

/-- `DEFAULT_WEIGHTS`. -/
def defaultWeights : ScoreWeights :=
  { severity := [("critical", 5), ("high", 4), ("medium", 2), ("low", 1)],
    confidence := [("high", 3), ("medium", 2), ("low", 1)] }

/-- `weights.severity.get(key, 0)` on a weight table. -/
def weightGet : List (String × Int) → String → Int
  | [], _ => 0
  | (k, v) :: rest, key => if k = key then v else weightGet rest key

/-- ASCII lowercasing (`str.lower()`; the repository's level strings are
ASCII). -/
def charLower (c : Char) : Char :=
  if 65 ≤ c.toNat && c.toNat ≤ 90 then Char.ofNat (c.toNat + 32) else c

def strLower (s : String) : String := String.mk (s.data.map charLower)

def isSpaceChar (c : Char) : Bool :=
  c.toNat = 32 || c.toNat = 9 || c.toNat = 10 || c.toNat = 13
    || c.toNat = 11 || c.toNat = 12

/-- `str.strip()` (whitespace at both ends). -/
def strTrim (s : String) : String :=
  String.mk (((s.data.dropWhile isSpaceChar).reverse.dropWhile isSpaceChar).reverse)

/-- First `n` characters (`s[:n]`). -/
def strTake (s : String) (n : Nat) : String := String.mk (s.data.take n)

/-- `_normalize_level`: `""` for `None`, else `str(value).strip().lower()`. -/
def normalizeLevel : Val → String
  | .vnull => ""
  | v => strLower (strTrim (pyStr v))

/-- `collect_findings` (also used by `_check_findings`): top-level
`findings` plus `static_scan.findings`, in that order.  `none` models the
`AttributeError` when `static_scan` is present but not a mapping. -/
def collectFindings (state : Val) : Option (List Val) :=
  match state with
  | .vdict kvs => do
      let top := match pyGet kvs "findings" with
        | .vlist xs => xs
        | _ => []
      let sFindings ← match pyGetD kvs "static_scan" (.vdict []) with
        | .vdict s => some (match pyGet s "findings" with
            | .vlist xs => xs
            | _ => [])
        | _ => none
      some (top ++ sFindings)
  | _ => none

/-- The module-level `_evidence_strength` helper used by `score_findings`
(truthiness checks only; no filesystem access). -/
def evidenceStrengthSimple (f : List (String × Val)) (w : ScoreWeights) : Int :=
  (if (pyGet f "source_tool").truthy && (pyGet f "artifact_paths").truthy
   then w.evidence else 0)
  + (if (pyGet f "repro").truthy || (pyGet f "repro_steps").truthy
        || (pyGet f "repro_path").truthy
     then w.repro else 0)

/-- One entry of the list `score_findings` builds (a Python dict with
fixed keys; `severity`/`confidence` are the normalized strings, the last
three fields hold the raw state values). -/
structure ScoredItem where
  score : Int
  severity : String
  confidence : String
  source_tool : Val
  category : Val
  description : Val
  finding : Val
deriving DecidableEq, Repr

/-- `_severity_weight` (always reads `DEFAULT_WEIGHTS`). -/
def severityWeight (v : Val) : Int :=
  weightGet defaultWeights.severity (normalizeLevel v)

/-- `_confidence_weight` (always reads `DEFAULT_WEIGHTS`). -/
def confidenceWeight (v : Val) : Int :=
  weightGet defaultWeights.confidence (normalizeLevel v)

/-- `_score_sort_key`: descending score, then descending severity and
confidence weights, then the three string-coerced text fields. -/
def scoreSortKey (it : ScoredItem) : List PyKey :=
  [.kInt (-it.score),
   .kInt (-(severityWeight (.vstr it.severity))),
   .kInt (-(confidenceWeight (.vstr it.confidence))),
   .kStr (pyStr it.source_tool),
   .kStr (pyStr it.category),
   .kStr (pyStr it.description)]

/-- The loop body of `score_findings` on one mapping-shaped finding. -/
def scoredItemOf (w : ScoreWeights) (f : Val) (d : List (String × Val)) : ScoredItem :=
  let severity := normalizeLevel (pyOr (pyGet d "severity") (pyGet d "impact"))
  let confidence := normalizeLevel (pyGet d "confidence")
  let evidenceScore := evidenceStrengthSimple d w
  let severityScore := weightGet w.severity severity
  let confidenceScore := weightGet w.confidence confidence
  { score := evidenceScore + severityScore + confidenceScore,
    severity := if severity = "" then "unknown" else severity,
    confidence := if confidence = "" then "unknown" else confidence,
    source_tool := pyGetD d "source_tool" (.vstr "unknown"),
    category := pyGetD d "category" (.vstr "unknown"),
    description := pyGetD d "description" (.vstr ""),
    finding := f }

/-- `score_findings`: skips non-mapping entries, scores the rest, sorts by
`_score_sort_key` (total; the Python loop cannot raise). -/
def scoreFindings (findings : List Val) (w : ScoreWeights) : List ScoredItem :=
  sortPyKeys scoreSortKey
    (findings.filterMap fun f =>
      match f with
      | .vdict d => some (scoredItemOf w f d)
      | _ => none)

/-- `_truncate(value, 80)`. -/
def pyTruncate (v : Val) : String :=
  let text := pyStr v
  if text.data.length ≤ 80 then text else strTake text 77 ++ "..."

/-- `format_ranked_findings`: the Markdown table, one row per item. -/
def formatRankedFindings (scored : List ScoredItem) : String :=
  let header := ["| Rank | Score | Severity | Confidence | Tool | Category | Description |",
    "| --- | --- | --- | --- | --- | --- | --- |"]
  let rows := (List.range scored.length).zip scored |>.map fun p =>
    "| " ++ toString (p.1 + 1) ++ " | " ++ toString p.2.score ++ " | "
      ++ p.2.severity ++ " | " ++ p.2.confidence ++ " | " ++ pyStr p.2.source_tool
      ++ " | " ++ pyStr p.2.category ++ " | " ++ pyTruncate p.2.description ++ " |"
  let rows := header ++ rows
  let rows := if rows.length = 2
    then rows ++ ["| - | 0 | - | - | - | - | No findings scored. |"] else rows
  String.intercalate "\n" rows

/-- `Scorer._finding_title`:
`str(title or description or check or category or "finding")`. -/
def findingTitle (d : List (String × Val)) : String :=
  pyStr (pyOr (pyGet d "title") (pyOr (pyGet d "description")
    (pyOr (pyGet d "check") (pyOr (pyGet d "category") (.vstr "finding")))))

/-- `Scorer._finding_location`.  `none` models the `TypeError`/`KeyError`
raised by `artifact_paths[0]` on truthy non-sequences. -/
def findingLocation (d : List (String × Val)) : Option String :=
  if (pyGet d "path").truthy then
    some (pyStr (pyGet d "path") ++ ":"
      ++ pyStr (pyOr (pyGet d "lines") (pyOr (pyGet d "line") (.vstr ""))))
  else
    let ap := pyOr (pyGet d "artifact_paths") (.vlist [])
    if ap.truthy then (pyIndex0 ap).map pyStr
    else some ""

/-- The pipe-joined hash input of `Scorer.finding_id`. -/
def findingRaw (d : List (String × Val)) : Option String :=
  (findingLocation d).map fun loc =>
    findingTitle d ++ "|" ++ pyStr (pyGetD d "category" (.vstr "unknown")) ++ "|" ++ loc

/-- `Scorer.finding_id`: first 12 hex characters of the SHA-256 of the
pipe-joined `(title, category, location)` triple.  (When `_score_finding`
passes `title=`/`category=` explicitly it passes exactly these values, so
the one-argument form is the general case.) -/
def findingIdOf (d : List (String × Val)) : Option String :=
  (findingRaw d).map fun raw => strTake (sha256Hex raw) 12

/-- `Scorer._heuristic_severity`. -/
def heuristicSeverity (category : String) : String :=
  let lower := strLower category
  if strContains lower "reentrancy" || strContains lower "dangerous" then "high"
  else if strContains lower "unchecked" then "medium"
  else if strContains lower "fuzz" then "medium"
  else "low"

/-- `Scorer._is_reproducible`. -/
def isReproducible (d : List (String × Val)) : Bool :=
  (pyGet d "repro").truthy || (pyGet d "repro_steps").truthy
    || (pyGet d "repro_path").truthy

/-- `Path(artifact)` then resolve against `run_root` and probe existence;
`fsExists` is the filesystem, `runRoot` the run directory. -/
def resolveArtifact (runRoot p : String) : String :=
  if "/".data.isPrefixOf p.data then p else runRoot ++ "/" ++ p

/-- The loop of `Scorer._artifact_paths_valid`: first existing path wins;
a non-string element reached before a hit raises (`Path(x)` TypeError). -/
def artifactsValidGo (fsExists : String → Bool) (runRoot : String) :
    List Val → Option Bool
  | [] => some false
  | .vstr p :: rest =>
      if fsExists (resolveArtifact runRoot p) then some true
      else artifactsValidGo fsExists runRoot rest
  | _ :: _ => none

/-- `Scorer._artifact_paths_valid` applied to the raw state value. -/
def artifactPathsValid (fsExists : String → Bool) (runRoot : String) (ap : Val) :
    Option Bool := do
  let elems ← iterElems ap
  artifactsValidGo fsExists runRoot elems

/-- `Scorer._evidence_strength` (the method): evidence points and bucket. -/
def evidenceStrength (w : ScoreWeights) (fsExists : String → Bool)
    (runRoot : String) (skippedAny : Bool) (d : List (String × Val)) :
    Option (Int × String) := do
  let hasProvenance := (pyGet d "source_tool").truthy
  let ap := pyOr (pyGet d "artifact_paths") (.vlist [])
  let artifactsValid ← artifactPathsValid fsExists runRoot ap
  let p0 : Int := 0
  let p1 := if hasProvenance && artifactsValid then p0 + w.evidence else p0
  let p2 := if !hasProvenance || !artifactsValid
    then p1 - w.missing_evidence_penalty else p1
  let p3 := if isReproducible d then p2 + w.repro else p2
  let p4 := if skippedAny then p3 - w.skipped_capability_penalty else p3
  let strength := if p4 ≥ 3 then "high" else if p4 ≥ 1 then "medium" else "low"
  some (p4, strength)

/-- One scoreboard entry (the dict `_score_finding` returns). -/
structure ScoreEntry where
  finding_id : String
  title : String
  category : String
  severity : String
  confidence : String
  evidence_strength : String
  evidence_points : Int
  reproducible : Bool
  status : String
  score_total : Int
  source_tool : Val
  artifact_paths : Val
deriving DecidableEq, Repr

/-- `Scorer._score_finding`.  `previousScores` models the optional
`previous_scores` mapping as a lookup from finding id to the previous
`score_total` (scoreboard JSON stores integer totals). -/
def scoreFindingEntry (w : ScoreWeights) (fsExists : String → Bool)
    (runRoot : String) (skippedAny : Bool)
    (previousScores : Option (String → Option Int))
    (d : List (String × Val)) : Option ScoreEntry :=
  match evidenceStrength w fsExists runRoot skippedAny d with
  | none => none
  | some (evidencePoints, evidenceBucket) =>
  match findingIdOf d with
  | none => none
  | some fid =>
  let title := findingTitle d
  let category := pyStr (pyGetD d "category" (.vstr "unknown"))
  let severity0 := normalizeLevel (pyOr (pyGet d "severity") (pyGet d "impact"))
  let severity := if severity0 = "" then heuristicSeverity category else severity0
  let confidence0 := normalizeLevel (pyGet d "confidence")
  let confidence := if confidence0 = "" then "unknown" else confidence0
  let reproducible := isReproducible d
  let reproPoints : Int := if reproducible then 1 else 0
  let severityScore := weightGet w.severity severity
  let confidenceScore := weightGet w.confidence confidence
  let scoreTotal := severityScore + confidenceScore + evidencePoints + reproPoints
  let status := match previousScores with
    | none => "unknown"
    | some prev =>
        match prev fid with
        | none => "new"
        | some p => if scoreTotal > p then "regressed" else "unchanged"
  some { finding_id := fid,
         title := title,
         category := category,
         severity := if severity = "" then "unknown" else severity,
         confidence := if confidence = "" then "unknown" else confidence,
         evidence_strength := evidenceBucket,
         evidence_points := evidencePoints,
         reproducible := reproducible,
         status := status,
         score_total := scoreTotal,
         source_tool := pyGetD d "source_tool" (.vstr "unknown"),
         artifact_paths := pyGetD d "artifact_paths" (.vlist []) }

/-- `Scorer.skipped_capabilities` (dataclass default tuple). -/
def skippedCapabilityNames : List String :=
  ["static_scan", "graph_analysis", "fuzz_agent", "proof_agent"]

/-- The `skipped_names` set comprehension of `build_scoreboard`:
collects `entry.get("name")` over mapping-shaped entries of the iterable
`capabilities.get("skipped", [])`; adding an unhashable name raises. -/
def skippedNamesOf (entries : List Val) : Option (List Val) := do
  let names := (entries.filterMap fun e =>
    match e with
    | .vdict d => some (pyGet d "name")
    | _ => none)
  if names.all fun n =>
      match n with
      | .vlist _ => false
      | .vdict _ => false
      | _ => true
  then some names else none

/-- The scoreboard payload of `Scorer.build_scoreboard`. -/
structure Scoreboard where
  total_findings : Nat
  high_confidence : Nat
  capabilities : Val
  entries : List ScoreEntry
deriving DecidableEq, Repr

/-- Effectful `map` over `Option` (the semantics of a Python list
comprehension whose body may raise). -/
def optionMapM (f : α → Option β) : List α → Option (List β)
  | [] => some []
  | x :: xs =>
      match f x with
      | none => none
      | some y =>
          match optionMapM f xs with
          | none => none
          | some ys => some (y :: ys)

/-- `Scorer.build_scoreboard`.  Non-mapping findings are skipped; the
entries are sorted by `(-score_total, finding_id)`. -/
def buildScoreboard (w : ScoreWeights) (fsExists : String → Bool)
    (runRoot : String) (previousScores : Option (String → Option Int))
    (state : Val) : Option Scoreboard :=
  match collectFindings state with
  | none => none
  | some findings =>
  match state with
  | .vdict kvs =>
      let capabilities := pyGetD kvs "capabilities"
        (.vdict [("executed", .vlist []), ("skipped", .vlist [])])
      match capabilities with
      | .vdict c =>
          match iterElems (pyGetD c "skipped" (.vlist [])) with
          | none => none
          | some skippedRaw =>
          match skippedNamesOf skippedRaw with
          | none => none
          | some skippedNames =>
          let skippedAny := skippedNames.any fun n =>
            match n with
            | .vstr s => skippedCapabilityNames.contains s
            | _ => false
          match optionMapM
              (scoreFindingEntry w fsExists runRoot skippedAny previousScores)
              (findings.filterMap fun f =>
                match f with
                | .vdict d => some d
                | _ => none) with
          | none => none
          | some entries =>
          let entries := sortPyKeys (fun e : ScoreEntry =>
            [.kInt (-e.score_total), .kStr e.finding_id]) entries
          some { total_findings := entries.length,
                 high_confidence := (entries.filter fun e => e.confidence = "high").length,
                 capabilities := capabilities,
                 entries := entries }
      | _ => none
  | _ => none

/-! ## `agents/fuzz_agent.py` -/

/-- Python `a >= b` on state values. -/
def pyGe (a b : Val) : Option Bool := (pyLt a b).map (! ·)

/-- `sum(d.values())`: raises unless every value is numeric. -/
def sumVals : List (String × Val) → Option Int
  | [] => some 0
  | (_, v) :: rest => do
      let n ← v.numVal?
      let s ← sumVals rest
      some (n + s)

/-- `FuzzAgent.should_run` (thresholds are the dataclass fields, default 1).
Returns the `(should_run, reason)` pair; `none` models a raised error. -/
def fuzzShouldRun (staticThreshold graphThreshold : Int) (state : Val) :
    Option (Bool × String) :=
  match state with
  | .vdict kvs =>
      match pyGetD kvs "budget" (.vdict []) with
      | .vdict b =>
          let cap := pyGet b "cap"
          let spent := pyGetD b "spent" (.vint 0)
          match (if cap.truthy then pyGe spent cap else some false) with
          | none => none
          | some true => some (false, "budget_exceeded")
          | some false =>
              match pyGetD kvs "static_scan" (.vdict []) with
              | .vdict sd =>
                  match (match pyGetD sd "signals" (.vdict []) with
                         | .vdict sig => sumVals sig
                         | _ => some 0) with
                  | none => none
                  | some staticScore =>
                      match pyGetD kvs "graph_analysis" (.vdict []) with
                      | .vdict g =>
                          match (if staticScore ≥ staticThreshold then some true
                                 else pyGe (pyGetD g "score" (.vint 0))
                                   (.vint graphThreshold)) with
                          | none => none
                          | some true => some (true, "threshold_met")
                          | some false => some (false, "threshold_not_met")
                      | _ => none
              | _ => none
      | _ => none
  | _ => none

/-! ## `agents/repair_agent.py` -/

/-- `RepairAgent._has_budget` (`REPAIR_MIN_BUDGET` passed as `minBudget`). -/
def repairHasBudget (minBudget : Int) (kvs : List (String × Val)) : Option Bool := do
  let b ← match pyGetD kvs "budget" (.vdict []) with
    | .vdict b => some b
    | _ => none
  let cap := pyGet b "cap"
  let spent := pyGetD b "spent" (.vint 0)
  if cap = .vnull then some false
  else do
    let c ← cap.numVal?
    let s ← spent.numVal?
    some (decide (c - s ≥ minBudget))

/-- `RepairAgent.should_run`: `(should_run, reason, target finding)`. -/
def repairShouldRun (minBudget : Int) (state : Val) :
    Option (Bool × String × Option Val) := do
  let findings ← collectFindings state
  let scored := scoreFindings findings defaultWeights
  match scored with
  | [] => some (false, "no_findings", none)
  | top :: _ => do
      let finding := top.finding
      let d ← match finding with
        | .vdict d => some d
        | _ => none
      let confidence := strLower (pyStr (pyGetD d "confidence" (.vstr "")))
      let hasRepro := (pyGet d "repro").truthy || (pyGet d "repro_steps").truthy
        || (pyGet d "repro_path").truthy
      if confidence ≠ "high" || !hasRepro then
        some (false, "insufficient_evidence", some finding)
      else do
        let kvs ← match state with
          | .vdict kvs => some kvs
          | _ => none
        let hasBudget ← repairHasBudget minBudget kvs
        if !hasBudget then some (false, "insufficient_budget", some finding)
        else some (true, "eligible", some finding)

/-- `RepairAgent.run`.  The eligible branch (patch file, verifier call,
success classification) performs external effects and is abstracted as
`eligibleEffect`; the skip branch writes
`state["repair"] = {"status": "skipped", "reason": reason}` and persists. -/
def repairRun (minBudget : Int) (eligibleEffect : Val → Val → Val) (state : Val) :
    Option Val := do
  let (ok, reason, finding?) ← repairShouldRun minBudget state
  if ok then
    some (eligibleEffect state (finding?.getD .vnull))
  else
    match state with
    | .vdict kvs => some (.vdict (assocSet kvs "repair"
        (.vdict [("status", .vstr "skipped"), ("reason", .vstr reason)])))
    | _ => none

/-! ## `reporting.py` -/

/-- `ReportGenerator._recommendations` (expects the signals mapping). -/
def recommendationsOf (findings : List (String × Val)) : List String :=
  (if (pyGet findings "reentrancy").truthy
   then ["Review reentrancy guards and external call ordering."] else [])
  ++ (if (pyGet findings "unchecked_return").truthy
      then ["Handle return values from external calls."] else [])
  ++ (if (pyGet findings "delegatecall").truthy
      then ["Audit delegatecall usage for storage safety."] else [])

/-- `ReportGenerator._format_capabilities`: map-shaped ledgers are listed
sorted by stage name with a reason; anything else formats as `""`. -/
def formatCapabilities (entries : Val) : String :=
  match entries with
  | .vdict ekvs =>
      joinComma ((sortPyKeys (fun n => [.kStr n]) (ekvs.map Prod.fst)).map fun name =>
        match pyGet ekvs name with
        | .vdict payload =>
            name ++ " (" ++ pyStr (pyOr (pyGet payload "reason")
              (pyGetD payload "status" (.vstr "unknown"))) ++ ")"
        | _ => name)
  | _ => ""

/-- `s or "None"` for the capability lines. -/
def orNone (s : String) : String := if s = "" then "None" else s

/-- The `lines` list built by `ReportGenerator.write_report`; `none`
models a raised error (non-mapping sections, non-string LLM summary). -/
def reportLines (state : Val) : Option (List String) := do
  let kvs ← match state with
    | .vdict kvs => some kvs
    | _ => none
  let llmSummaryVal := pyOr (pyGet kvs "llm_synthesis")
    (.vdict [("status", .vstr "unavailable"), ("summary", .vnull)])
  let llm ← match llmSummaryVal with
    | .vdict l => some l
    | _ => none
  let staticScan ← match pyGetD kvs "static_scan" (.vdict []) with
    | .vdict s => some s
    | _ => none
  let findings ← match pyGetD staticScan "signals" (.vdict []) with
    | .vdict f => some f
    | _ => none
  let evidence := pyGetD staticScan "evidence" (.vlist [])
  let recommendations := recommendationsOf findings
  let capabilities := pyGetD kvs "capabilities"
    (.vdict [("executed", .vdict []), ("skipped", .vdict [])])
  let invariantErrors := pyGetD kvs "invariant_errors" (.vlist [])
  let collected ← collectFindings state
  let ranked := formatRankedFindings (scoreFindings collected defaultWeights)
  let findingLines := if (Val.vdict findings).truthy
    then findings.map fun kv => "- " ++ kv.1 ++ ": " ++ pyStr kv.2
    else ["- No findings captured."]
  let evidenceLines ← do
    if evidence.truthy then do
      let items ← iterElems evidence
      items.mapM fun item =>
        match item with
        | .vdict d => some ("- " ++ pyStr (pyGetD d "category" (.vstr "unknown"))
            ++ " at " ++ pyStr (pyOr (pyGet d "path") (.vstr "unknown")))
        | _ => none
    else some ["- No evidence captured."]
  let recommendationLines := if recommendations.isEmpty
    then ["- No recommendations available."]
    else recommendations.map fun rec => "- " ++ rec
  let executed ← match capabilities with
    | .vdict c => some (pyGetD c "executed" (.vdict []))
    | _ => none
  let skipped ← match capabilities with
    | .vdict c => some (pyGetD c "skipped" (.vdict []))
    | _ => none
  let llmLines ← do
    let summary := pyGet llm "summary"
    if summary.truthy then
      match summary with
      | .vstr s => some [s]
      | _ => none
    else if pyGet llm "status" = .vstr "error" then
      some ["- LLM synthesis failed: " ++ pyStr (pyGetD llm "error" (.vstr "unknown error"))]
    else some ["- LLM synthesis unavailable."]
  let errorLines ← do
    if invariantErrors.truthy then do
      let items ← iterElems invariantErrors
      some ("" :: "## Errors" :: items.map fun e => "- " ++ pyStr e)
    else some []
  some (["# Ralph Wiggum Audit Report", "", "## Findings"]
    ++ findingLines
    ++ ["", "## Evidence"] ++ evidenceLines
    ++ ["", "## Recommendations"] ++ recommendationLines
    ++ ["", "## Ranked Findings", ranked]
    ++ ["", "## Capabilities Executed / Skipped"]
    ++ ["- Executed: " ++ orNone (formatCapabilities executed),
        "- Skipped: " ++ orNone (formatCapabilities skipped)]
    ++ ["", "## LLM Synthesis", "_This section is heuristic synthesis, not evidence._"]
    ++ llmLines
    ++ errorLines)

/-- The text `write_report` writes to `report.md`. -/
def reportText (state : Val) : Option String :=
  (reportLines state).map fun lines => String.intercalate "\n" lines ++ "\n"

/-! ## `kernel.py`

The kernel is embedded as a pipeline of stage functions over a
continuation value `KCont` threading the kernel's in-memory `state`, the
`StateStore`'s persisted copy (`load`/`save` round-trips are explicit),
a timestamp counter, and an event trace.  External collaborators
(Slither, Foundry, Solodit, the LLM, the proof/repair artifact writers)
are fields of `KernelEnv`; each is applied to the persisted state exactly
where the Python kernel calls it.  A raised exception anywhere in the
kernel's own code yields the `crashed` outcome. -/

structure KernelEnv where
  artifactsDir : String
  nowIso : Nat → String
  staticScanEffect : Val → Val
  slitherJsonExists : Bool
  graphEffect : Val → Val
  soloditAvailable : Bool
  soloditResult : Val → Val
  foundryResult : Val
  proofEffect : Val → Val
  repairEligibleEffect : Val → Val → Val
  repairMinBudget : Int
  llmAvailable : Bool
  llmResult : Val → Val
  llmMinBudget : Int

inductive KEvent where
  | check (errs : List String)
  | stage (name : String)
deriving DecidableEq, Repr

inductive KOutcome where
  | crashed (trace : List KEvent)
  | failedInvariant (state : Val) (report : String) (trace : List KEvent)
  | completed (state : Val) (report : String) (trace : List KEvent)
deriving DecidableEq, Repr

inductive KCont where
  | stop (out : KOutcome)
  | go (state persisted : Val) (counter : Nat) (trace : List KEvent)
deriving Repr

/-- `d.setdefault(k, v)`'s effect on the dict. -/
def setdefaultKv (kvs : List (String × Val)) (k : String) (v : Val) :
    List (String × Val) :=
  if (assocGet kvs k).isSome then kvs else assocSet kvs k v

def dictOf : Val → Option (List (String × Val))
  | .vdict kvs => some kvs
  | _ => none

/-- The dict-shaped ledger default the kernel seeds (`{"executed": {}, "skipped": {}}`). -/
def capsDefault : Val := .vdict [("executed", .vdict []), ("skipped", .vdict [])]

/-- `Kernel._record_capability_executed`: writes through
`capabilities["executed"][name]`; raises (`none`) when the `executed`
bucket is missing or not a dict (string indexing a list is a TypeError). -/
def recordExecuted (state : Val) (name : String) (status : Val)
    (startedAt finishedAt : String) (artifactPaths : Val) : Option Val := do
  let kvs ← dictOf state
  let kvs := setdefaultKv kvs "capabilities" capsDefault
  let c ← dictOf (pyGet kvs "capabilities")
  match assocGet c "executed" with
  | some (.vdict e) => do
      let paths ← iterElems artifactPaths
      let entry := Val.vdict [("started_at", .vstr startedAt),
        ("finished_at", .vstr finishedAt),
        ("artifact_paths", .vlist (paths.filter Val.truthy)),
        ("status", status)]
      some (.vdict (assocSet kvs "capabilities"
        (.vdict (assocSet c "executed" (.vdict (assocSet e name entry))))))
  | _ => none

/-- `Kernel._record_capability_skipped` (same shape constraints). -/
def recordSkipped (state : Val) (name : String) (reason evidence : Val) :
    Option Val := do
  let kvs ← dictOf state
  let kvs := setdefaultKv kvs "capabilities" capsDefault
  let c ← dictOf (pyGet kvs "capabilities")
  match assocGet c "skipped" with
  | some (.vdict sk) =>
      some (.vdict (assocSet kvs "capabilities"
        (.vdict (assocSet c "skipped"
          (.vdict (assocSet sk name (.vdict [("reason", reason), ("evidence", evidence)])))))))
  | _ => none

/-- `Kernel._handle_invariant_failure`: mark the state, persist it, and
produce the report text. -/
def handleInvariantFailure (state : Val) (errs : List String) :
    Option (Val × String) := do
  let kvs ← dictOf state
  let kvs := assocSet kvs "status" (.vstr "failed_invariant")
  let kvs := assocSet kvs "invariant_errors" (.vlist (errs.map Val.vstr))
  let report ← reportText (.vdict kvs)
  some (.vdict kvs, report)

/-- Run `validate_state` inside the kernel and branch: halt into
`failed_invariant` on a non-empty error list, continue otherwise. -/
def kCheck (k : Val → Val → Nat → List KEvent → KCont)
    (state persisted : Val) (counter : Nat) (trace : List KEvent) : KCont :=
  match validateState state with
  | none => .stop (.crashed trace)
  | some (errs, state) =>
      let trace := trace ++ [KEvent.check errs]
      if errs.isEmpty then k state persisted counter trace
      else
        match handleInvariantFailure state errs with
        | none => .stop (.crashed trace)
        | some (st, rep) => .stop (.failedInvariant st rep trace)

/-- `Kernel.run` lines 50-61: seed the state record, persist, first check. -/
def kInit (targetPath : String) (initial : Val) : KCont :=
  match initial with
  | .vdict kvs =>
      let kvs := setdefaultKv kvs "status" (.vstr "running")
      let kvs := setdefaultKv kvs "capabilities" capsDefault
      let kvs := setdefaultKv kvs "budget" (.vdict [("spent", .vint 0), ("cap", .vint 0)])
      let kvs := assocSet kvs "target_path" (.vstr targetPath)
      let state := Val.vdict kvs
      kCheck (fun st p c t => .go st p c t) state state 0 []
  | _ => .stop (.crashed [])

/-- The `agent_queue` replay loop (lines 63-76).  Queue entries are stage
names; the model covers string entries (non-string dict keys are outside
the `Val` dict model). -/
def kReplayGo (env : KernelEnv) : List Val → KCont → KCont
  | _, .stop out => .stop out
  | [], k => k
  | agent :: rest, .go state persisted counter trace =>
      match agent with
      | .vstr name =>
          match recordExecuted state name (.vstr "queued") (env.nowIso counter)
            (env.nowIso (counter + 1)) (.vlist []) with
          | none => .stop (.crashed trace)
          | some state =>
              kReplayGo env rest
                (kCheck (fun st _ c t => .go st st c t) state persisted (counter + 2) trace)
      | _ => .stop (.crashed trace)

def kReplay (env : KernelEnv) : KCont → KCont
  | .stop out => .stop out
  | .go state persisted counter trace =>
      match state with
      | .vdict kvs =>
          match iterElems (pyGetD kvs "agent_queue" (.vlist [])) with
          | none => .stop (.crashed trace)
          | some queue => kReplayGo env queue (.go state persisted counter trace)
      | _ => .stop (.crashed trace)

/-- The static-scan stage (lines 78-122). -/
def kStatic (env : KernelEnv) (targetPath : String) : KCont → KCont
  | .stop out => .stop out
  | .go state persisted counter trace =>
      match dictOf state with
      | none => .stop (.crashed trace)
      | some kvs =>
          if (assocGet kvs "static_scan").isNone then
            let persisted := state
            let started := env.nowIso counter
            let persisted := env.staticScanEffect persisted
            let trace := trace ++ [KEvent.stage "static_scan"]
            let state := persisted
            let finished := env.nowIso (counter + 1)
            match dictOf state with
            | none => .stop (.crashed trace)
            | some kvs1 =>
                match dictOf (pyGetD kvs1 "static_scan" (.vdict [])) with
                | none => .stop (.crashed trace)
                | some sd =>
                    let staticStatus := pyGet sd "status"
                    let artifactPaths := pyGetD sd "artifact_paths" (.vlist [])
                    let recorded :=
                      if staticStatus = .vstr "skipped" || staticStatus = .vstr "failed" then
                        recordSkipped state "static_scan"
                          (pyGetD sd "reason" (.vstr "slither_unavailable"))
                          (pyGetD sd "skip_evidence" (.vstr "slither_unavailable"))
                      else
                        recordExecuted state "static_scan"
                          (pyOr staticStatus (.vstr "success")) started finished artifactPaths
                    match recorded with
                    | none => .stop (.crashed trace)
                    | some state =>
                        let persisted := state
                        kCheck (fun st _ c t => .go st persisted c t) state persisted
                          (counter + 2) trace
          else
            match recordSkipped state "static_scan" (.vstr "already_present")
              (.vstr "state_contains_static_scan") with
            | none => .stop (.crashed trace)
            | some state => .go state state counter trace

/-- The graph-analysis stage (lines 124-151).  Note: in the executed
branch the capability record and the validator's bookkeeping mutations are
not persisted (the Python code does not save before the next `load`). -/
def kGraph (env : KernelEnv) : KCont → KCont
  | .stop out => .stop out
  | .go state persisted counter trace =>
      match dictOf state with
      | none => .stop (.crashed trace)
      | some kvs =>
          if (assocGet kvs "graph_analysis").isNone && env.slitherJsonExists then
            let started := env.nowIso counter
            let persisted := state
            let persisted := env.graphEffect persisted
            let trace := trace ++ [KEvent.stage "graph_analysis"]
            let state := persisted
            match recordExecuted state "graph_analysis" (.vstr "success") started
              (env.nowIso (counter + 1))
              (.vlist [.vstr (env.artifactsDir ++ "/slither.json")]) with
            | none => .stop (.crashed trace)
            | some state =>
                kCheck (fun st p c t => .go st p c t) state persisted (counter + 2) trace
          else if (assocGet kvs "graph_analysis").isNone then
            match recordSkipped state "graph_analysis" (.vstr "slither_json_missing")
              (.vstr "slither_json_missing") with
            | none => .stop (.crashed trace)
            | some state => .go state state counter trace
          else
            .go state persisted counter trace

/-- `{"status": "skipped", "reason": r}`. -/
def skippedDict (reason : String) : Val :=
  .vdict [("status", .vstr "skipped"), ("reason", .vstr reason)]

/-- `Kernel._run_solodit` (lines 318-367), preceded/followed by the
`load` calls of lines 153-155. -/
def kSolodit (env : KernelEnv) : KCont → KCont
  | .stop out => .stop out
  | .go _ persisted counter trace =>
      let state := persisted
      match dictOf state with
      | none => .stop (.crashed trace)
      | some kvs =>
          match pyLt (pyGetD kvs "escalation_level" (.vint 0)) (.vint 2) with
          | none => .stop (.crashed trace)
          | some lowEscalation =>
              if lowEscalation then
                match recordSkipped state "solodit" (.vstr "escalation_level")
                  (.vstr "escalation_level") with
                | none => .stop (.crashed trace)
                | some state =>
                    match dictOf state with
                    | none => .stop (.crashed trace)
                    | some kvs1 =>
                        let state := Val.vdict (assocSet kvs1 "solodit"
                          (skippedDict "escalation_level"))
                        .go state state counter trace
              else if !env.soloditAvailable then
                match recordSkipped state "solodit" (.vstr "solodit_unavailable")
                  (.vstr "solodit_not_configured") with
                | none => .stop (.crashed trace)
                | some state =>
                    match dictOf state with
                    | none => .stop (.crashed trace)
                    | some kvs1 =>
                        let state := Val.vdict (assocSet kvs1 "solodit"
                          (skippedDict "solodit_unavailable"))
                        .go state state counter trace
              else
                let started := env.nowIso counter
                let result := env.soloditResult state
                let trace := trace ++ [KEvent.stage "solodit"]
                let finished := env.nowIso (counter + 1)
                match dictOf result with
                | none => .stop (.crashed trace)
                | some rd =>
                    let recorded :=
                      if pyGet rd "status" ≠ .vstr "success" then
                        recordSkipped state "solodit" (.vstr "solodit_error")
                          (pyGetD rd "reason" (.vstr "solodit_error"))
                      else
                        recordExecuted state "solodit" (.vstr "success") started finished
                          (pyGetD rd "artifact_paths" (.vlist []))
                    match recorded with
                    | none => .stop (.crashed trace)
                    | some state =>
                        match dictOf state with
                        | none => .stop (.crashed trace)
                        | some kvs1 =>
                            let state := Val.vdict (assocSet kvs1 "solodit" result)
                            .go state state (counter + 2) trace

/-- `FuzzAgent.run`'s effect on the persisted state (the agent reloads,
mutates `fuzz`/`fuzz_failures`, saves). -/
def fuzzAgentApply (result persisted : Val) : Option Val := do
  let rd ← dictOf result
  let kvs ← dictOf persisted
  let kvs := setdefaultKv kvs "fuzz" (.vdict [])
  let fz ← dictOf (pyGet kvs "fuzz")
  let kvs := assocSet kvs "fuzz" (.vdict (assocSet fz "log_path" (pyGet rd "log_path")))
  let kvs := if pyGet rd "status" = .vstr "failed"
    then assocSet kvs "fuzz_failures" (pyGetD rd "failures" (.vlist []))
    else kvs
  some (.vdict kvs)

/-- The fuzz stage (lines 157-186); thresholds are the dataclass defaults. -/
def kFuzz (env : KernelEnv) : KCont → KCont
  | .stop out => .stop out
  | .go state persisted counter trace =>
      match fuzzShouldRun 1 1 state with
      | none => .stop (.crashed trace)
      | some (shouldRun, reason) =>
          if shouldRun then
            let persisted := state
            let started := env.nowIso counter
            let result := env.foundryResult
            match fuzzAgentApply result persisted with
            | none => .stop (.crashed (trace ++ [KEvent.stage "fuzz_agent"]))
            | some persisted =>
                let trace := trace ++ [KEvent.stage "fuzz_agent"]
                let state := persisted
                match dictOf result with
                | none => .stop (.crashed trace)
                | some rd =>
                    let status := pyGet rd "status"
                    let recorded :=
                      if status = .vstr "skipped" || status = .vstr "failed" then
                        recordSkipped state "fuzz_agent"
                          (pyGetD rd "reason" (.vstr "foundry_unavailable"))
                          (pyGetD rd "evidence" (.vstr "foundry_unavailable"))
                      else
                        match dictOf state with
                        | none => none
                        | some kvs1 =>
                            match dictOf (pyGetD kvs1 "fuzz" (.vdict [])) with
                            | none => none
                            | some fz =>
                                recordExecuted state "fuzz_agent"
                                  (pyGetD rd "status" (.vstr "success")) started
                                  (env.nowIso (counter + 1)) (.vlist [pyGet fz "log_path"])
                    match recorded with
                    | none => .stop (.crashed trace)
                    | some state => .go state state (counter + 2) trace
          else
            match recordSkipped state "fuzz_agent" (.vstr reason) (.vstr "thresholds") with
            | none => .stop (.crashed trace)
            | some state => .go state state counter trace

/-- `Kernel._run_proof_agent` (lines 369-406), with the `load` of line 188. -/
def kProof (env : KernelEnv) : KCont → KCont
  | .stop out => .stop out
  | .go _ persisted counter trace =>
      let state := persisted
      match collectFindings state with
      | none => .stop (.crashed trace)
      | some findings =>
          if findings.isEmpty then
            match recordSkipped state "proof_agent" (.vstr "no_findings")
              (.vstr "no_findings") with
            | none => .stop (.crashed trace)
            | some state =>
                match dictOf state with
                | none => .stop (.crashed trace)
                | some kvs1 =>
                    let state := Val.vdict (assocSet kvs1 "proofs"
                      (.vdict [("status", .vstr "skipped"), ("reason", .vstr "no_findings"),
                        ("artifacts", .vlist [])]))
                    .go state state counter trace
          else
            let started := env.nowIso counter
            let persisted := state
            let persisted := env.proofEffect persisted
            let trace := trace ++ [KEvent.stage "proof_agent"]
            let state := persisted
            match dictOf state with
            | none => .stop (.crashed trace)
            | some kvs1 =>
                match dictOf (pyGetD kvs1 "proofs" (.vdict [])) with
                | none => .stop (.crashed trace)
                | some pd =>
                    let artifactPaths :=
                      match pyGetD pd "artifacts" (.vlist []) with
                      | .vlist items => items.flatMap fun a =>
                          match a with
                          | .vdict ad =>
                              if (pyGet ad "path").truthy then [pyGet ad "path"] else []
                          | .vstr s => [Val.vstr s]
                          | _ => []
                      | _ => []
                    match recordExecuted state "proof_agent" (.vstr "success") started
                      (env.nowIso (counter + 1)) (.vlist artifactPaths) with
                    | none => .stop (.crashed trace)
                    | some state => .go state state (counter + 2) trace

/-- `Kernel._run_repair_agent` (lines 408-429), with the `load` of line 190. -/
def kRepair (env : KernelEnv) : KCont → KCont
  | .stop out => .stop out
  | .go _ persisted counter trace =>
      let state := persisted
      match repairShouldRun env.repairMinBudget state with
      | none => .stop (.crashed trace)
      | some (shouldRun, reason, _) =>
          if shouldRun then
            let started := env.nowIso counter
            let persisted := state
            match repairRun env.repairMinBudget env.repairEligibleEffect persisted with
            | none => .stop (.crashed (trace ++ [KEvent.stage "repair_agent"]))
            | some persisted =>
                let trace := trace ++ [KEvent.stage "repair_agent"]
                let state := persisted
                match dictOf state with
                | none => .stop (.crashed trace)
                | some kvs1 =>
                    match dictOf (pyGetD kvs1 "repair" (.vdict [])) with
                    | none => .stop (.crashed trace)
                    | some rp =>
                        match recordExecuted state "repair_agent"
                          (pyGetD rp "status" (.vstr "success")) started
                          (env.nowIso (counter + 1)) (.vlist [pyGet rp "patch_path"]) with
                        | none => .stop (.crashed trace)
                        | some state => .go state state (counter + 2) trace
          else
            match recordSkipped state "repair_agent" (.vstr reason) (.vstr "gating") with
            | none => .stop (.crashed trace)
            | some state =>
                match dictOf state with
                | none => .stop (.crashed trace)
                | some kvs1 =>
                    let state := Val.vdict (assocSet kvs1 "repair" (skippedDict reason))
                    .go state state counter trace

/-- `Kernel._has_llm_budget` (`LLM_MIN_BUDGET` passed as `minBudget`). -/
def llmHasBudget (minBudget : Int) (state : Val) : Option Bool := do
  let kvs ← dictOf state
  let b ← dictOf (pyGetD kvs "budget" (.vdict []))
  let cap := pyGet b "cap"
  let spent := pyGetD b "spent" (.vint 0)
  if cap = .vnull then some false
  else do
    let c ← cap.numVal?
    let s ← spent.numVal?
    some (decide (c - s ≥ minBudget))

/-- `Kernel._run_llm_synthesis` (lines 243-305), with the `load` of line 192. -/
def kLlm (env : KernelEnv) : KCont → KCont
  | .stop out => .stop out
  | .go _ persisted counter trace =>
      let state := persisted
      match collectFindings state with
      | none => .stop (.crashed trace)
      | some findings =>
          if findings.isEmpty then
            match recordSkipped state "llm_synthesis" (.vstr "no_findings")
              (.vstr "no_findings") with
            | none => .stop (.crashed trace)
            | some state =>
                match dictOf state with
                | none => .stop (.crashed trace)
                | some kvs1 =>
                    let state := Val.vdict (assocSet kvs1 "llm_synthesis"
                      (skippedDict "no_findings"))
                    .go state state counter trace
          else
            match llmHasBudget env.llmMinBudget state with
            | none => .stop (.crashed trace)
            | some hasBudget =>
                if !hasBudget then
                  match recordSkipped state "llm_synthesis" (.vstr "insufficient_budget")
                    (.vstr "budget") with
                  | none => .stop (.crashed trace)
                  | some state =>
                      match dictOf state with
                      | none => .stop (.crashed trace)
                      | some kvs1 =>
                          let state := Val.vdict (assocSet kvs1 "llm_synthesis"
                            (skippedDict "insufficient_budget"))
                          .go state state counter trace
                else if !env.llmAvailable then
                  match recordSkipped state "llm_synthesis" (.vstr "llm_unavailable")
                    (.vstr "llm_not_configured") with
                  | none => .stop (.crashed trace)
                  | some state =>
                      match dictOf state with
                      | none => .stop (.crashed trace)
                      | some kvs1 =>
                          let state := Val.vdict (assocSet kvs1 "llm_synthesis"
                            (skippedDict "llm_unavailable"))
                          .go state state counter trace
                else
                  let started := env.nowIso counter
                  let result := env.llmResult state
                  let trace := trace ++ [KEvent.stage "llm_synthesis"]
                  let finished := env.nowIso (counter + 1)
                  match dictOf result with
                  | none => .stop (.crashed trace)
                  | some rd =>
                      let recorded :=
                        if pyGet rd "status" ≠ .vstr "success"
                            || !(pyGet rd "summary").truthy then
                          recordSkipped state "llm_synthesis" (.vstr "llm_error")
                            (.vstr "llm_failed")
                        else
                          recordExecuted state "llm_synthesis" (.vstr "success") started
                            finished (pyGetD rd "artifact_paths" (.vlist []))
                      match recorded with
                      | none => .stop (.crashed trace)
                      | some state =>
                          match dictOf state with
                          | none => .stop (.crashed trace)
                          | some kvs1 =>
                              let state := Val.vdict (assocSet kvs1 "llm_synthesis" result)
                              .go state state (counter + 2) trace

/-- Lines 194-201: the final invariant check, `status = "completed"`,
and the report. -/
def kFinish : KCont → KOutcome
  | .stop out => out
  | .go _ persisted counter trace =>
      let state := persisted
      match kCheck (fun st p c t => .go st p c t) state persisted counter trace with
      | .stop out => out
      | .go state _ _ trace =>
          match dictOf state with
          | none => .crashed trace
          | some kvs =>
              let state := Val.vdict (assocSet kvs "status" (.vstr "completed"))
              match reportText state with
              | none => .crashed trace
              | some report => .completed state report trace

/-- `Kernel.run`: the full stage pipeline. -/
def kernelRun (env : KernelEnv) (initial : Val) (targetPath : String) : KOutcome :=
  kFinish (kLlm env (kRepair env (kProof env (kFuzz env (kSolodit env
    (kGraph env (kStatic env targetPath (kReplay env (kInit targetPath initial)))))))))

def c1ResultA : ToolResult :=
  { name := "a", artifacts := ["x.log"], findings := [.vdict [("extra", .vstr "1")]], payload := none }

def c1ResultB : ToolResult :=
  { name := "a", artifacts := ["y.log"], findings := [.vdict [("extra", .vstr "2")]], payload := none }

def c1Jobs : List ToolJob :=
  [{ name := "a", result := c1ResultA }, { name := "a", result := c1ResultB }]

def c1Completion : List ToolResult := [c1ResultB, c1ResultA]

def c1wResultA : ToolResult :=
  { name := "a", artifacts := ["x.log"], findings := [.vdict [("check", .vstr "c1")]], payload := none }

def c1wResultB : ToolResult :=
  { name := "b", artifacts := ["x.log", "z.log"], findings := [], payload := none }

def c1wJobs : List ToolJob :=
  [{ name := "a", result := c1wResultA }, { name := "b", result := c1wResultB }]

/-- Top-level key lookup on a state record (`None`-free view). -/
def stateLookup (v : Val) (k : String) : Option Val :=
  match v with
  | .vdict kvs => assocGet kvs k
  | _ => none

def KOutcome.traceOf : KOutcome → List KEvent
  | .crashed t => t
  | .failedInvariant _ _ t => t
  | .completed _ _ t => t

def KOutcome.isCrashed : KOutcome → Bool
  | .crashed _ => true
  | _ => false

def KOutcome.stateOf : KOutcome → Option Val
  | .crashed _ => none
  | .failedInvariant st _ _ => some st
  | .completed st _ _ => some st

def KOutcome.finalStatus (o : KOutcome) : Option Val :=
  o.stateOf.bind fun st => stateLookup st "status"

def KOutcome.invariantErrorsOf (o : KOutcome) : Option Val :=
  o.stateOf.bind fun st => stateLookup st "invariant_errors"

/-- An environment whose external collaborators are all unavailable and
whose effects are inert (the runs below halt before using any of it). -/
def inertEnv : KernelEnv :=
  { artifactsDir := "artifacts",
    nowIso := fun _ => "1970-01-01T00:00:00+00:00",
    staticScanEffect := id,
    slitherJsonExists := false,
    graphEffect := id,
    soloditAvailable := false,
    soloditResult := id,
    foundryResult := .vdict [("status", .vstr "skipped")],
    proofEffect := id,
    repairEligibleEffect := fun s _ => s,
    repairMinBudget := 1,
    llmAvailable := false,
    llmResult := id,
    llmMinBudget := 1 }

/-- The initial state of `test_kernel_records_fuzz_agent_skip_reason`
(`src/tests/test_kernel_invariants.py`): the dict-shaped capability ledger
the kernel itself seeds. -/
def c2DictState : Val := .vdict [
  ("budget", .vdict [("spent", .vint 0), ("cap", .vint 0)]),
  ("capabilities", .vdict [("executed", .vdict []), ("skipped", .vdict [])]),
  ("static_scan", .vdict [("signals", .vdict [("reentrancy", .vint 0)])]),
  ("graph_analysis", .vdict [("score", .vint 0)])]

/-- The initial state of the determinism tests
(`src/tests/test_determinism.py`): a list-shaped capability ledger, which
the invariant checker accepts. -/
def c2ListState : Val := .vdict [
  ("capabilities", .vdict [("executed", .vlist []), ("skipped", .vlist [])]),
  ("budget", .vdict [("spent", .vint 1), ("cap", .vint 1)])]

/-- A static-scan effect standing in for the stubbed Slither runner of the
determinism tests: it records a successful `static_scan` stage result. -/
def c2StaticEffect : Val → Val
  | .vdict kvs => .vdict (assocSet kvs "static_scan" (.vdict [("status", .vstr "success")]))
  | v => v

def c2Env : KernelEnv := { inertEnv with staticScanEffect := c2StaticEffect }

/-- The state of the `test_kernel_handles_invariant_failure` scenario:
budget `{spent: 1, cap: 10, last_spent: 5}`. -/
def c4State : Val := .vdict [
  ("budget", .vdict [("spent", .vint 1), ("cap", .vint 10), ("last_spent", .vint 5)]),
  ("capabilities", .vdict [("executed", .vdict []), ("skipped", .vdict [])])]

def c4Errs : List String :=
  ["Budget spent decreased from previous value.",
   "Capabilities executed is not a list.",
   "Capabilities skipped is not a list."]

def c7FindingHigh : Val := .vdict [
  ("description", .vstr "reentrancy in withdraw"),
  ("confidence", .vstr "high"),
  ("repro_steps", .vstr "run forge test")]

def c7FindingMedium : Val := .vdict [
  ("description", .vstr "reentrancy in withdraw"),
  ("confidence", .vstr "medium"),
  ("repro_steps", .vstr "run forge test")]

def c7Budget : Val := .vdict [("cap", .vint 5), ("spent", .vint 0)]

def c7StateHigh : Val := .vdict [("findings", .vlist [c7FindingHigh]), ("budget", c7Budget)]

def c7StateMedium : Val := .vdict [("findings", .vlist [c7FindingMedium]), ("budget", c7Budget)]

/-- The fuzz gate exactly as the claim words it: budget cap set with
`cap - spent >= 0`, and one of the two scores meets its threshold. -/
def claimFuzzGate (staticThreshold graphThreshold : Int) (cap : Option Int)
    (spent staticScore graphScore : Int) : Bool :=
  match cap with
  | some c => decide (c - spent ≥ 0)
      && (decide (staticScore ≥ staticThreshold) || decide (graphScore ≥ graphThreshold))
  | none => false

def c6State : Val := .vdict [
  ("budget", .vdict [("cap", .vint 5), ("spent", .vint 5)]),
  ("static_scan", .vdict [("signals", .vdict [("reentrancy", .vint 1)])]),
  ("graph_analysis", .vdict [("score", .vint 0)])]

def c6StateNoCap : Val := .vdict [
  ("static_scan", .vdict [("signals", .vdict [("reentrancy", .vint 1)])]),
  ("graph_analysis", .vdict [("score", .vint 0)])]

/-- The budget rejection exactly as the code implements it: `cap` truthy
and `spent >= cap` (under Python's comparison semantics). -/
def fuzzBudgetBlocked (s : Val) : Prop :=
  ∃ kvs b, s = .vdict kvs ∧ pyGetD kvs "budget" (.vdict []) = .vdict b
    ∧ (pyGet b "cap").truthy = true
    ∧ pyGe (pyGetD b "spent" (.vint 0)) (pyGet b "cap") = some true

/-- The static aggregate signal score the gate computes. -/
def fuzzStaticScore (s : Val) : Option Int :=
  match s with
  | .vdict kvs =>
      match pyGetD kvs "static_scan" (.vdict []) with
      | .vdict sd =>
          match pyGetD sd "signals" (.vdict []) with
          | .vdict sig => sumVals sig
          | _ => some 0
      | _ => none
  | _ => none

/-- The threshold disjunction (static first; the graph score is only
consulted when the static score is below its threshold). -/
def fuzzThresholdMet (st gt : Int) (s : Val) : Prop :=
  ∃ ss, fuzzStaticScore s = some ss
    ∧ (ss ≥ st ∨ ∃ kvs g gs, s = .vdict kvs
        ∧ pyGetD kvs "graph_analysis" (.vdict []) = .vdict g
        ∧ (pyGetD g "score" (.vint 0)).numVal? = some gs ∧ gs ≥ gt)

/-! ## Specification-side predicates for the invariant checker (claims C3/C9) -/

/-- The budget clause of the spec, under Python's comparison semantics
(numbers, and same-type strings or lists, are comparable): `spent` is not
below the recorded `last_spent` baseline and not above `cap`.  A
comparison the program never makes — absent or `None` fields, or the
`spent is None` early return — imposes no constraint (`pyLt`/`pyGt`
return `none` there). -/
def budgetSpecOf (bOpt : Val) : Prop :=
  ∀ b, bOpt = Val.vdict b →
    pyLt (pyGet b "spent") (pyGetD b "last_spent" (pyGet b "spent")) ≠ some true
    ∧ pyGt (pyGet b "spent") (pyGet b "cap") ≠ some true

def specBudgetOk (kvs : List (String × Val)) : Prop :=
  budgetSpecOf (pyGet kvs "budget")

/-- The escalation clause, under Python's comparison semantics: the level
has not decreased below the recorded baseline unless a truthy
justification is present. -/
def escSpecOf (level prevVal reason : Val) : Prop :=
  pyLt level prevVal ≠ some true ∨ reason.truthy = true

def specEscalationOk (kvs : List (String × Val)) : Prop :=
  escSpecOf (pyGet kvs "escalation_level")
    (pyGetD kvs "escalation_previous" (pyGet kvs "escalation_level"))
    (pyGet kvs "escalation_reason")

/-- The findings the checker inspects: top-level `findings` plus
`static_scan.findings`. -/
def collectedForInvariants (kvs : List (String × Val)) : List Val :=
  (match pyGet kvs "findings" with
   | .vlist xs => xs
   | _ => [])
  ++ (match pyGetD kvs "static_scan" (.vdict []) with
      | .vdict s =>
          match pyGet s "findings" with
          | .vlist xs => xs
          | _ => []
      | _ => [])

/-- A finding is a mapping carrying the three provenance keys. -/
def specFindingOk (f : Val) : Prop :=
  ∃ d, f = Val.vdict d ∧ (assocGet d "source_tool").isSome = true
    ∧ (assocGet d "artifact_paths").isSome = true
    ∧ (assocGet d "confidence").isSome = true

/-- A ledger entry is a string or a mapping carrying `name` and `reason`. -/
def specCapEntryOk (e : Val) : Prop :=
  (∃ s, e = Val.vstr s)
  ∨ ∃ d, e = Val.vdict d ∧ (assocGet d "name").isSome = true
      ∧ (assocGet d "reason").isSome = true

/-- A capability bucket must be a **list** of well-formed entries (the
shape `_check_capabilities` enforces). -/
def specBucketOk (v : Val) : Prop :=
  ∃ xs, v = Val.vlist xs ∧ ∀ e ∈ xs, specCapEntryOk e

def specCapsOk (kvs : List (String × Val)) : Prop :=
  ∃ c, pyGet kvs "capabilities" = Val.vdict c
    ∧ (assocGet c "executed").isSome = true
    ∧ (assocGet c "skipped").isSome = true
    ∧ specBucketOk (pyGetD c "executed" (.vlist []))
    ∧ specBucketOk (pyGetD c "skipped" (.vlist []))

/-- The amended C3 right-hand side. -/
def specValidState (kvs : List (String × Val)) : Prop :=
  specBudgetOk kvs ∧ specEscalationOk kvs
    ∧ (∀ f ∈ collectedForInvariants kvs, specFindingOk f)
    ∧ specCapsOk kvs

/-- The capability clause as the claim words it: the buckets are
"collections" — a list of well-formed entries or any mapping. -/
def claimBucketOk (v : Val) : Prop :=
  specBucketOk v ∨ ∃ d, v = Val.vdict d

def claimCapsOk (kvs : List (String × Val)) : Prop :=
  ∃ c, pyGet kvs "capabilities" = Val.vdict c
    ∧ (assocGet c "executed").isSome = true
    ∧ (assocGet c "skipped").isSome = true
    ∧ claimBucketOk (pyGetD c "executed" (.vlist []))
    ∧ claimBucketOk (pyGetD c "skipped" (.vlist []))

/-- C3's right-hand side exactly as claimed (before amendment). -/
def claimValidState (kvs : List (String × Val)) : Prop :=
  specBudgetOk kvs ∧ specEscalationOk kvs
    ∧ (∀ f ∈ collectedForInvariants kvs, specFindingOk f)
    ∧ claimCapsOk kvs

def c9WState : Val := .vdict [
  ("budget", .vdict [("spent", .vint 2), ("cap", .vint 5)]),
  ("escalation_level", .vint 1),
  ("findings", .vlist []),
  ("capabilities", .vdict [("executed", .vlist []), ("skipped", .vlist [])]),
  ("status", .vstr "running")]

def c9WStateAfter : Val := .vdict [
  ("budget", .vdict [("spent", .vint 2), ("cap", .vint 5), ("last_spent", .vint 2)]),
  ("escalation_level", .vint 1),
  ("findings", .vlist []),
  ("capabilities", .vdict [("executed", .vlist []), ("skipped", .vlist [])]),
  ("status", .vstr "running"),
  ("escalation_previous", .vint 1)]

def c3CKvs : List (String × Val) := [("capabilities",
  .vdict [("executed", .vdict []), ("skipped", .vdict [])])]

def c3CState : Val := .vdict c3CKvs

def c3WKvs : List (String × Val) := [
  ("budget", .vdict [("spent", .vint 3), ("cap", .vint 10), ("last_spent", .vint 1)]),
  ("escalation_level", .vint 2),
  ("escalation_previous", .vint 1),
  ("findings", .vlist [.vdict [("source_tool", .vstr "slither"),
    ("artifact_paths", .vlist [.vstr "a"]), ("confidence", .vstr "high")]]),
  ("capabilities", .vdict [("executed", .vlist [.vstr "static_scan"]),
    ("skipped", .vlist [.vdict [("name", .vstr "fuzz_testing"),
      ("reason", .vstr "budget_exceeded")]])])]

def c3WOut : Val := .vdict [
  ("budget", .vdict [("spent", .vint 3), ("cap", .vint 10), ("last_spent", .vint 3)]),
  ("escalation_level", .vint 2),
  ("escalation_previous", .vint 2),
  ("findings", .vlist [.vdict [("source_tool", .vstr "slither"),
    ("artifact_paths", .vlist [.vstr "a"]), ("confidence", .vstr "high")]]),
  ("capabilities", .vdict [("executed", .vlist [.vstr "static_scan"]),
    ("skipped", .vlist [.vdict [("name", .vstr "fuzz_testing"),
      ("reason", .vstr "budget_exceeded")]])])]

/-- The claim's evidence-points formula (matching the code's
`_evidence_strength` points: +2 / −1 provenance, +1 reproducibility,
−1 skipped capability). -/
def claimEvidencePoints (fsExists : String → Bool) (runRoot : String)
    (skippedAny : Bool) (d : List (String × Val)) : Option Int := do
  let hasProvenance := (pyGet d "source_tool").truthy
  let ap := pyOr (pyGet d "artifact_paths") (.vlist [])
  let artifactsValid ← artifactPathsValid fsExists runRoot ap
  some ((if hasProvenance && artifactsValid then (2 : Int) else -1)
    + (if isReproducible d then 1 else 0)
    + (if skippedAny then -1 else 0))

/-- The claim's severity table key: the normalized severity, with the
per-category heuristic as fallback when absent. -/
def claimSeverityName (d : List (String × Val)) : String :=
  let s := normalizeLevel (pyOr (pyGet d "severity") (pyGet d "impact"))
  if s = "" then heuristicSeverity (pyStr (pyGetD d "category" (.vstr "unknown"))) else s

/-- The claim's total: severity weight + confidence weight + evidence
points — exactly three terms. -/
def claimScoreTotal (fsExists : String → Bool) (runRoot : String)
    (skippedAny : Bool) (d : List (String × Val)) : Option Int := do
  let ev ← claimEvidencePoints fsExists runRoot skippedAny d
  some (weightGet defaultWeights.severity (claimSeverityName d)
    + weightGet defaultWeights.confidence (normalizeLevel (pyGet d "confidence"))
    + ev)

def c5Finding : List (String × Val) := [("title", .vstr "t"), ("category", .vstr "c"),
  ("severity", .vstr "low"), ("confidence", .vstr "high"), ("repro_steps", .vstr "x")]

def c5Entry : ScoreEntry :=
  { finding_id := strTake (sha256Hex "t|c|") 12,
    title := "t", category := "c", severity := "low", confidence := "high",
    evidence_strength := "low", evidence_points := 0, reproducible := true,
    status := "unknown", score_total := 5,
    source_tool := .vstr "unknown", artifact_paths := .vlist [] }

def c8D1 : List (String × Val) := [("title", .vstr "a|b"), ("category", .vstr "c"),
  ("path", .vstr "p")]

def c8D2 : List (String × Val) := [("title", .vstr "a"), ("category", .vstr "b|c"),
  ("path", .vstr "p")]

def c8W1 : List (String × Val) := [("title", .vstr "x"), ("category", .vstr "y"),
  ("path", .vstr "p")]

def c8W2 : List (String × Val) := [("category", .vstr "y"), ("title", .vstr "x"),
  ("path", .vstr "p"), ("severity", .vstr "low")]

def c10State : Val := .vdict [("findings", .vlist [.vdict [("artifact_paths", .vint 1)]])]

def c10WState : Val := .vdict [("findings", .vlist [.vint 3])]

/-! ## Theorems -/

theorem insertLe_perm (le : α → α → Bool) (a : α) :
    ∀ l : List α, (insertLe le a l).Perm (a :: l)
  | [] => List.Perm.refl _
  | b :: bs => by
      unfold insertLe
      by_cases h : le a b = true
      · rw [if_pos h]
      · rw [if_neg h]
        exact ((insertLe_perm le a bs).cons b).trans (List.Perm.swap a b bs)

theorem sortByLe_perm (le : α → α → Bool) :
    ∀ l : List α, (sortByLe le l).Perm l
  | [] => List.Perm.refl _
  | a :: as =>
      (insertLe_perm le a (sortByLe le as)).trans ((sortByLe_perm le as).cons a)

theorem insertLe_pairwise (le : α → α → Bool)
    (htot : ∀ x y, le x y = true ∨ le y x = true)
    (htr : ∀ x y z, le x y = true → le y z = true → le x z = true) (a : α) :
    ∀ l : List α, l.Pairwise (fun x y => le x y = true) →
      (insertLe le a l).Pairwise (fun x y => le x y = true)
  | [], _ => by simp [insertLe]
  | b :: bs, hp => by
      unfold insertLe
      rcases List.pairwise_cons.mp hp with ⟨hb, hbs⟩
      by_cases h : le a b = true
      · rw [if_pos h]
        refine List.pairwise_cons.mpr ⟨?_, hp⟩
        intro x hx
        rcases List.mem_cons.mp hx with rfl | hx
        · exact h
        · exact htr a b x h (hb x hx)
      · rw [if_neg h]
        have hba : le b a = true := (htot a b).resolve_left h
        refine List.pairwise_cons.mpr ⟨?_, insertLe_pairwise le htot htr a bs hbs⟩
        intro x hx
        have hmem := (insertLe_perm le a bs).mem_iff.mp hx
        rcases List.mem_cons.mp hmem with rfl | hxbs
        · exact hba
        · exact hb x hxbs

theorem sortByLe_pairwise (le : α → α → Bool)
    (htot : ∀ x y, le x y = true ∨ le y x = true)
    (htr : ∀ x y z, le x y = true → le y z = true → le x z = true) :
    ∀ l : List α, (sortByLe le l).Pairwise (fun x y => le x y = true)
  | [] => List.Pairwise.nil
  | a :: as =>
      insertLe_pairwise le htot htr a (sortByLe le as) (sortByLe_pairwise le htot htr as)

/-- Two sorted lists that are permutations of each other are equal, as long
as `le` is antisymmetric on the elements involved. -/
theorem eq_of_perm_of_pairwiseLe (le : α → α → Bool) :
    ∀ l₁ l₂ : List α, l₁.Perm l₂ →
      l₁.Pairwise (fun x y => le x y = true) →
      l₂.Pairwise (fun x y => le x y = true) →
      (∀ a b, a ∈ l₁ → b ∈ l₁ → le a b = true → le b a = true → a = b) →
      l₁ = l₂
  | [], l₂, hp, _, _, _ => (hp.nil_eq).symm ▸ rfl
  | a :: t₁, [], hp, _, _, _ => absurd hp.eq_nil (by simp)
  | a :: t₁, b :: t₂, hp, hs₁, hs₂, hanti => by
      rcases List.pairwise_cons.mp hs₁ with ⟨ha, ht₁⟩
      rcases List.pairwise_cons.mp hs₂ with ⟨hb, ht₂⟩
      have hab : a = b := by
        by_cases heq : a = b
        · exact heq
        · have hbmem : b ∈ a :: t₁ := hp.symm.mem_iff.mp (by simp)
          have hamem : a ∈ b :: t₂ := hp.mem_iff.mp (by simp)
          have hb_t₁ : b ∈ t₁ := by
            rcases List.mem_cons.mp hbmem with h | h
            · exact absurd h.symm heq
            · assumption
          have ha_t₂ : a ∈ t₂ := by
            rcases List.mem_cons.mp hamem with h | h
            · exact absurd h heq
            · assumption
          exact hanti a b (by simp) (by simp [hb_t₁]) (ha b hb_t₁) (hb a ha_t₂)
      subst hab
      have htail : t₁.Perm t₂ := hp.cons_inv
      have : t₁ = t₂ :=
        eq_of_perm_of_pairwiseLe le t₁ t₂ htail ht₁ ht₂
          (fun x y hx hy => hanti x y (by simp [hx]) (by simp [hy]))
      rw [this]

set_option maxRecDepth 10000 in
/-- FIPS 180-4 test vector: `sha256Hex` on `"abc"`. -/
theorem sha256Hex_abc_vector :
    sha256Hex "abc"
      = "ba7816bf8f01cfea414140de5dae2223b00361a396177a9cb410ff61f20015ad" := by
  decide

theorem charListLt_irrefl : ∀ as, charListLt as as = false
  | [] => rfl
  | a :: as => by
      unfold charListLt
      rw [if_neg (lt_irrefl a), if_pos rfl]
      exact charListLt_irrefl as

theorem charListLt_trans : ∀ as bs cs, charListLt as bs = true →
    charListLt bs cs = true → charListLt as cs = true
  | [], [], _, hab, _ => by cases hab
  | _ :: _, [], _, hab, _ => by cases hab
  | [], _ :: _, [], _, hbc => by cases hbc
  | _ :: _, _ :: _, [], _, hbc => by cases hbc
  | [], _ :: _, _ :: _, _, _ => rfl
  | a :: as, b :: bs, c :: cs, hab, hbc => by
      unfold charListLt at hab hbc ⊢
      by_cases h1 : a < b
      · by_cases h2 : b < c
        · rw [if_pos (lt_trans h1 h2)]
        · by_cases h3 : b = c
          · subst h3
            rw [if_pos h1]
          · rw [if_neg h2, if_neg h3] at hbc
            cases hbc
      · by_cases h3 : a = b
        · subst h3
          by_cases h2 : a < c
          · rw [if_pos h2]
          · by_cases h4 : a = c
            · subst h4
              rw [if_neg h2, if_pos rfl]
              rw [if_neg h1, if_pos rfl] at hab hbc
              exact charListLt_trans as bs cs hab hbc
            · rw [if_neg h2, if_neg h4] at hbc
              cases hbc
        · rw [if_neg h1, if_neg h3] at hab
          cases hab

theorem charListLt_conn : ∀ as bs, charListLt as bs = false →
    charListLt bs as = false → as = bs
  | [], [], _, _ => rfl
  | [], _ :: _, hab, _ => by cases hab
  | _ :: _, [], _, hba => by cases hba
  | a :: as, b :: bs, hab, hba => by
      unfold charListLt at hab hba
      by_cases h1 : a < b
      · rw [if_pos h1] at hab
        cases hab
      · by_cases h2 : b < a
        · rw [if_pos h2] at hba
          cases hba
        · have heq : a = b := le_antisymm (not_lt.mp h2) (not_lt.mp h1)
          subst heq
          rw [if_neg h1, if_pos rfl] at hab hba
          rw [charListLt_conn as bs hab hba]

theorem strLt_irrefl (a : String) : strLt a a = false := charListLt_irrefl a.data

theorem strLt_trans {a b c : String} (h1 : strLt a b = true) (h2 : strLt b c = true) :
    strLt a c = true := charListLt_trans a.data b.data c.data h1 h2

theorem strLt_conn {a b : String} (h1 : strLt a b = false) (h2 : strLt b a = false) :
    a = b := by
  have h := charListLt_conn a.data b.data h1 h2
  cases a
  cases b
  exact congrArg String.mk h

theorem pyKeyLt_irrefl : ∀ a : PyKey, pyKeyLt a a = false
  | .kInt n => by simp [pyKeyLt]
  | .kStr s => strLt_irrefl s

theorem pyKeyLt_trans : ∀ a b c : PyKey, pyKeyLt a b = true → pyKeyLt b c = true →
    pyKeyLt a c = true
  | .kInt x, .kInt y, .kInt z, h1, h2 => by
      simp only [pyKeyLt, decide_eq_true_eq] at h1 h2 ⊢
      omega
  | .kStr x, .kStr y, .kStr z, h1, h2 => strLt_trans h1 h2
  | .kInt _, .kStr _, _, h1, _ => by cases h1
  | .kStr _, .kInt _, _, h1, _ => by cases h1
  | .kInt _, .kInt _, .kStr _, _, h2 => by cases h2
  | .kStr _, .kStr _, .kInt _, _, h2 => by cases h2

theorem pyKeyLt_conn : ∀ a b : PyKey, PyKey.shape a = PyKey.shape b →
    pyKeyLt a b = false → pyKeyLt b a = false → a = b
  | .kInt x, .kInt y, _, h1, h2 => by
      simp only [pyKeyLt, decide_eq_false_iff_not, not_lt] at h1 h2
      rw [le_antisymm h2 h1]
  | .kStr x, .kStr y, _, h1, h2 => by rw [strLt_conn h1 h2]
  | .kInt _, .kStr _, hs, _, _ => by cases hs
  | .kStr _, .kInt _, hs, _, _ => by cases hs

theorem pyKeyListLe_total : ∀ ks ls, ks.map PyKey.shape = ls.map PyKey.shape →
    pyKeyListLe ks ls = true ∨ pyKeyListLe ls ks = true
  | [], _, _ => Or.inl rfl
  | _ :: _, [], h => by cases h
  | a :: as, b :: bs, h => by
      simp only [List.map_cons, List.cons.injEq] at h
      unfold pyKeyListLe
      by_cases h1 : pyKeyLt a b = true
      · rw [if_pos h1]
        exact Or.inl rfl
      · by_cases h2 : pyKeyLt b a = true
        · rw [if_pos h2]
          exact Or.inr rfl
        · have heq : a = b := pyKeyLt_conn a b h.1
            (Bool.not_eq_true _ ▸ h1) (Bool.not_eq_true _ ▸ h2)
          subst heq
          rw [if_neg (by rw [pyKeyLt_irrefl]; exact Bool.false_ne_true), if_pos rfl,
            if_neg (by rw [pyKeyLt_irrefl]; exact Bool.false_ne_true), if_pos rfl]
          exact pyKeyListLe_total as bs h.2

theorem pyKeyListLe_trans : ∀ ks ls ms, pyKeyListLe ks ls = true →
    pyKeyListLe ls ms = true → pyKeyListLe ks ms = true
  | [], _, _, _, _ => rfl
  | _ :: _, [], _, h1, _ => by cases h1
  | _ :: _, _ :: _, [], _, h2 => by cases h2
  | a :: as, b :: bs, c :: cs, h1, h2 => by
      unfold pyKeyListLe at h1 h2 ⊢
      by_cases hab : pyKeyLt a b = true
      · by_cases hbc : pyKeyLt b c = true
        · rw [if_pos (pyKeyLt_trans a b c hab hbc)]
        · by_cases hbc2 : b = c
          · rw [if_pos (hbc2 ▸ hab)]
          · rw [if_neg hbc, if_neg hbc2] at h2
            cases h2
      · by_cases hab2 : a = b
        · subst hab2
          by_cases hac : pyKeyLt a c = true
          · rw [if_pos hac]
          · by_cases hac2 : a = c
            · subst hac2
              rw [if_neg hac, if_pos rfl]
              rw [if_neg hab, if_pos rfl] at h1 h2
              exact pyKeyListLe_trans as bs cs h1 h2
            · rw [if_neg hac, if_neg hac2] at h2
              cases h2
        · rw [if_neg hab, if_neg hab2] at h1
          cases h1

theorem pyKeyLt_asymm {a b : PyKey} (h : pyKeyLt a b = true) : pyKeyLt b a = false := by
  by_cases h2 : pyKeyLt b a = true
  · have := pyKeyLt_trans a b a h h2
    rw [pyKeyLt_irrefl] at this
    cases this
  · exact Bool.not_eq_true _ ▸ h2

theorem pyKeyListLe_antisymm : ∀ ks ls, pyKeyListLe ks ls = true →
    pyKeyListLe ls ks = true → ks = ls
  | [], [], _, _ => rfl
  | [], _ :: _, _, h2 => by cases h2
  | _ :: _, [], h1, _ => by cases h1
  | a :: as, b :: bs, h1, h2 => by
      unfold pyKeyListLe at h1 h2
      by_cases hab : pyKeyLt a b = true
      · rw [if_neg (by rw [pyKeyLt_asymm hab]; exact Bool.false_ne_true)] at h2
        by_cases hba : b = a
        · subst hba
          rw [pyKeyLt_irrefl] at hab
          cases hab
        · rw [if_neg hba] at h2
          cases h2
      · by_cases hab2 : a = b
        · subst hab2
          rw [if_neg hab, if_pos rfl] at h1 h2
          rw [pyKeyListLe_antisymm as bs h1 h2]
        · rw [if_neg hab, if_neg hab2] at h1
          cases h1

/-- Sorting by an injective, shape-homogeneous key is order-of-input
independent. -/
theorem sortPyKeys_eq_of_perm (key : α → List PyKey)
    (hshape : ∀ x y, (key x).map PyKey.shape = (key y).map PyKey.shape)
    (l₁ l₂ : List α) (hperm : l₁.Perm l₂)
    (hnodup : (l₂.map key).Nodup) :
    sortPyKeys key l₁ = sortPyKeys key l₂ := by
  refine eq_of_perm_of_pairwiseLe _ _ _
    (((sortByLe_perm _ l₁).trans hperm).trans (sortByLe_perm _ l₂).symm)
    (sortByLe_pairwise _ (fun x y => pyKeyListLe_total _ _ (hshape x y))
      (fun x y z => pyKeyListLe_trans _ _ _) l₁)
    (sortByLe_pairwise _ (fun x y => pyKeyListLe_total _ _ (hshape x y))
      (fun x y z => pyKeyListLe_trans _ _ _) l₂) ?_
  intro a b hma hmb hab hba
  have hma2 : a ∈ l₂ := hperm.mem_iff.mp ((sortByLe_perm _ l₁).mem_iff.mp hma)
  have hmb2 : b ∈ l₂ := hperm.mem_iff.mp ((sortByLe_perm _ l₁).mem_iff.mp hmb)
  exact List.inj_on_of_nodup_map hnodup hma2 hmb2 (pyKeyListLe_antisymm _ _ hab hba)

/-- C1 (counterexample to the claim as stated): two jobs that share the
name `"a"` but produce different results.  The parallel branch sorts the
completion-ordered list with a stable sort, so both the merged result list
and the merged findings differ from the sequential run. -/
theorem c1_counterexample :
    c1Completion.Perm (c1Jobs.map ToolJob.result)
    ∧ poolRun true c1Jobs c1Completion ≠ poolRun false c1Jobs c1Completion
    ∧ mergeFindings (poolRun true c1Jobs c1Completion)
        ≠ mergeFindings (poolRun false c1Jobs c1Completion) := by
  refine ⟨?_, ?_, ?_⟩
  · decide
  · decide
  · decide

/-- C1: for every job list whose produced results carry pairwise distinct
names, the parallel run (under any completion order) and the sequential
run produce the same sorted result list, the same merged findings and the
same merged artifact set. -/
theorem c1_amended (jobs : List ToolJob) (completion : List ToolResult)
    (hperm : completion.Perm (jobs.map ToolJob.result))
    (hnodup : ((jobs.map ToolJob.result).map ToolResult.name).Nodup) :
    poolRun true jobs completion = poolRun false jobs completion
    ∧ mergeFindings (poolRun true jobs completion)
        = mergeFindings (poolRun false jobs completion)
    ∧ mergeArtifacts (poolRun true jobs completion)
        = mergeArtifacts (poolRun false jobs completion) := by
  have hmain : poolRun true jobs completion = poolRun false jobs completion := by
    unfold poolRun
    by_cases hlen : jobs.length ≤ 1
    · simp [hlen]
    · simp only [Bool.not_true, Bool.false_or, decide_eq_true_eq, if_neg hlen]
      refine sortPyKeys_eq_of_perm _ (fun x y => by simp [PyKey.shape]) _ _ hperm ?_
      have hinj : Function.Injective (fun s => ([.kStr s] : List PyKey)) := by
        intro x y hxy
        simpa using hxy
      have := hnodup.map hinj
      simpa [List.map_map, Function.comp] using this
  exact ⟨hmain, by rw [hmain], by rw [hmain]⟩

theorem c1_amended_witness :
    poolRun true c1wJobs [c1wResultB, c1wResultA] = poolRun false c1wJobs [c1wResultB, c1wResultA]
    ∧ mergeFindings (poolRun true c1wJobs [c1wResultB, c1wResultA])
        = mergeFindings (poolRun false c1wJobs [c1wResultB, c1wResultA])
    ∧ mergeArtifacts (poolRun true c1wJobs [c1wResultB, c1wResultA])
        = mergeArtifacts (poolRun false c1wJobs [c1wResultB, c1wResultA]) :=
  c1_amended c1wJobs [c1wResultB, c1wResultA] (by decide) (by decide)

/-- C2 (code bug): the claimed run structure is unrealisable.  With the
dict-shaped capability ledger the Kernel itself seeds, the very first
invariant check fails and the run halts before any stage; with a
list-shaped ledger the first check passes, `static_scan` runs, and the
first `_record_capability_executed` call crashes with a `TypeError` —
no further invariant check happens in either case, although the repo's
own tests expect these states to traverse the stage sequence. -/
theorem c2_code_bug :
    ((kernelRun c2Env c2DictState "contracts").traceOf
        = [.check ["Capabilities executed is not a list.",
                   "Capabilities skipped is not a list."]]
      ∧ (kernelRun c2Env c2DictState "contracts").finalStatus
          = some (.vstr "failed_invariant"))
    ∧ ((kernelRun c2Env c2ListState "contracts").traceOf
        = [.check [], .stage "static_scan"]
      ∧ (kernelRun c2Env c2ListState "contracts").isCrashed = true) := by
  refine ⟨⟨?_, ?_⟩, ?_, ?_⟩ <;> decide

/-- C4: on budget `{spent: 1, cap: 10, last_spent: 5}` `validate_state`
reports "Budget spent decreased from previous value.", the Kernel halts
with status `failed_invariant` storing the error list in
`invariant_errors`, and the written report contains an `## Errors`
section listing that error. -/
theorem c4_confirmed :
    (validateState c4State).map Prod.fst = some c4Errs
    ∧ "Budget spent decreased from previous value." ∈ c4Errs
    ∧ (kernelRun inertEnv c4State "contracts").finalStatus = some (.vstr "failed_invariant")
    ∧ (kernelRun inertEnv c4State "contracts").invariantErrorsOf
        = some (.vlist (c4Errs.map Val.vstr))
    ∧ ∃ lines, ((kernelRun inertEnv c4State "contracts").stateOf.bind reportLines)
        = some lines
        ∧ "## Errors" ∈ lines
        ∧ "- Budget spent decreased from previous value." ∈ lines := by
  refine ⟨by decide, by decide, by decide, by decide, ?_⟩
  refine ⟨_, rfl, by decide, by decide⟩

/-- C7: with the top finding at confidence "high" and non-empty
`repro_steps` and budget cap 5 / spent 0, `RepairAgent.should_run`
returns `(True, "eligible")`; with confidence "medium" it returns
`(False, "insufficient_evidence")` and `run` records the repair stage as
skipped with that reason. -/
theorem c7_confirmed :
    repairShouldRun 1 c7StateHigh = some (true, "eligible", some c7FindingHigh)
    ∧ repairShouldRun 1 c7StateMedium
        = some (false, "insufficient_evidence", some c7FindingMedium)
    ∧ repairRun 1 (fun s _ => s) c7StateMedium
        = some (.vdict [("findings", .vlist [c7FindingMedium]), ("budget", c7Budget),
            ("repair", .vdict [("status", .vstr "skipped"),
              ("reason", .vstr "insufficient_evidence")])]) := by
  refine ⟨?_, ?_, ?_⟩ <;> decide

/-- C6 (counterexample to the claim as stated): with cap 5 and spent 5
the claim's budget condition `cap − spent ≥ 0` holds yet the code returns
`budget_exceeded`; with no cap at all the claim requires the gate to be
closed ("cap must be set") yet the code returns `True`. -/
theorem c6_counterexample :
    fuzzShouldRun 1 1 c6State = some (false, "budget_exceeded")
    ∧ claimFuzzGate 1 1 (some 5) 5 1 0 = true
    ∧ fuzzShouldRun 1 1 c6StateNoCap = some (true, "threshold_met")
    ∧ claimFuzzGate 1 1 none 0 1 0 = false := by
  refine ⟨?_, ?_, ?_, ?_⟩ <;> decide

theorem pyLt_vint_right (x : Val) (n : Int) :
    pyLt x (.vint n) = x.numVal?.map fun m => decide (m < n) := by
  cases x <;> rfl

/-- C6: whenever `should_run` returns, it returns
`(False, "budget_exceeded")` iff the cap is truthy and spent ≥ cap,
`(True, "threshold_met")` iff the budget test passes and a score meets
its threshold, and `(False, "threshold_not_met")` in the remaining
case. -/
theorem c6_amended (st gt : Int) (s : Val) (r : Bool × String)
    (h : fuzzShouldRun st gt s = some r) :
    (r = (false, "budget_exceeded") ↔ fuzzBudgetBlocked s)
    ∧ (r = (true, "threshold_met") ↔ (¬ fuzzBudgetBlocked s ∧ fuzzThresholdMet st gt s))
    ∧ (r = (false, "threshold_not_met")
        ↔ (¬ fuzzBudgetBlocked s ∧ ¬ fuzzThresholdMet st gt s)) := by
  rcases s with _ | b0 | n0 | t0 | xs0 | kvs <;> try exact Option.noConfusion h
  unfold fuzzShouldRun at h
  dsimp only at h
  cases hb : pyGetD kvs "budget" (.vdict []) <;> rw [hb] at h <;>
    (try dsimp only at h) <;> try exact Option.noConfusion h
  case vdict b =>
  cases hgate : (if (pyGet b "cap").truthy = true
      then pyGe (pyGetD b "spent" (Val.vint 0)) (pyGet b "cap") else some false) with
  | none => rw [hgate] at h; exact Option.noConfusion h
  | some exceeded =>
  rw [hgate] at h
  have hblocked : fuzzBudgetBlocked (Val.vdict kvs) ↔ exceeded = true := by
    constructor
    · rintro ⟨kvs2, b2, hkvs, hb2, htr, hge⟩
      cases (Val.vdict.inj hkvs)
      rw [hb] at hb2
      cases (Val.vdict.inj hb2)
      rw [if_pos htr, hge] at hgate
      exact (Option.some.inj hgate).symm
    · intro hex
      subst hex
      by_cases htr : (pyGet b "cap").truthy = true
      · rw [if_pos htr] at hgate
        exact ⟨kvs, b, rfl, hb, htr, hgate⟩
      · rw [if_neg htr] at hgate
        exact absurd (Option.some.inj hgate) (by simp)
  cases hex : exceeded
  case true =>
    rw [hex] at h hblocked
    dsimp only at h
    cases (Option.some.inj h)
    refine ⟨⟨fun _ => hblocked.mpr rfl, fun _ => rfl⟩, ?_, ?_⟩
    · exact ⟨fun hcontra => absurd hcontra (by simp),
        fun hc2 => absurd (hblocked.mpr rfl) hc2.1⟩
    · exact ⟨fun hcontra => absurd hcontra (by simp),
        fun hc2 => absurd (hblocked.mpr rfl) hc2.1⟩
  case false =>
  rw [hex] at h hblocked
  dsimp only at h
  have hnb : ¬ fuzzBudgetBlocked (Val.vdict kvs) := fun hbl => by
    have := hblocked.mp hbl
    exact absurd this (by simp)
  cases hss : pyGetD kvs "static_scan" (.vdict []) <;> rw [hss] at h <;>
    (try dsimp only at h) <;> try exact Option.noConfusion h
  case vdict sd =>
  cases hsig : (match pyGetD sd "signals" (Val.vdict []) with
      | Val.vdict sig => sumVals sig
      | _ => some 0) with
  | none => rw [hsig] at h; exact Option.noConfusion h
  | some ss =>
  rw [hsig] at h
  dsimp only at h
  cases hg : pyGetD kvs "graph_analysis" (.vdict []) <;> rw [hg] at h <;>
    (try dsimp only at h) <;> try exact Option.noConfusion h
  case vdict g =>
  have hstat : fuzzStaticScore (Val.vdict kvs) = some ss := by
    simp only [fuzzStaticScore, hss]
    exact hsig
  cases hthr : (if ss ≥ st then some true
      else pyGe (pyGetD g "score" (.vint 0)) (.vint gt)) with
  | none => rw [hthr] at h; exact Option.noConfusion h
  | some met =>
  rw [hthr] at h
  try dsimp only at h
  cases met
  case false =>
    cases (Option.some.inj h)
    have hnmet : ¬ fuzzThresholdMet st gt (Val.vdict kvs) := by
      rintro ⟨ss2, hstat2, hdisj⟩
      rw [hstat] at hstat2
      cases (Option.some.inj hstat2)
      by_cases hst : ss ≥ st
      · rw [if_pos hst] at hthr
        exact absurd (Option.some.inj hthr) (by simp)
      · rcases hdisj with hle | ⟨kvs2, g2, gs, hkvs2, hg2, hgs, hge⟩
        · exact hst hle
        · cases (Val.vdict.inj hkvs2)
          rw [hg] at hg2
          cases (Val.vdict.inj hg2)
          rw [if_neg hst] at hthr
          unfold pyGe at hthr
          rw [pyLt_vint_right, hgs] at hthr
          simp at hthr
          omega
    exact ⟨⟨fun hcontra => absurd hcontra (by simp), fun hbl => absurd hbl hnb⟩,
      ⟨fun hcontra => absurd hcontra (by simp), fun hc2 => absurd hc2.2 hnmet⟩,
      ⟨fun _ => ⟨hnb, hnmet⟩, fun _ => rfl⟩⟩
  case true =>
    cases (Option.some.inj h)
    have hmet : fuzzThresholdMet st gt (Val.vdict kvs) := by
      refine ⟨ss, hstat, ?_⟩
      by_cases hst : ss ≥ st
      · exact Or.inl hst
      · rw [if_neg hst] at hthr
        unfold pyGe at hthr
        rw [pyLt_vint_right] at hthr
        cases hgs : (pyGetD g "score" (.vint 0)).numVal? with
        | none => rw [hgs] at hthr; simp at hthr
        | some gs =>
            rw [hgs] at hthr
            simp at hthr
            exact Or.inr ⟨kvs, g, gs, rfl, hg, hgs, hthr⟩
    refine ⟨⟨fun hcontra => absurd hcontra (by simp),
        fun hbl => absurd hbl hnb⟩,
      ⟨fun _ => ⟨hnb, hmet⟩, fun _ => rfl⟩,
      ⟨fun hcontra => absurd hcontra (by simp), fun hc2 => absurd hmet hc2.2⟩⟩

theorem c6_amended_witness :
    ((false, "budget_exceeded") = (false, "budget_exceeded") ↔ fuzzBudgetBlocked c6State)
    ∧ ((false, "budget_exceeded") = (true, "threshold_met")
        ↔ (¬ fuzzBudgetBlocked c6State ∧ fuzzThresholdMet 1 1 c6State))
    ∧ ((false, "budget_exceeded") = (false, "threshold_not_met")
        ↔ (¬ fuzzBudgetBlocked c6State ∧ ¬ fuzzThresholdMet 1 1 c6State)) :=
  c6_amended 1 1 c6State (false, "budget_exceeded") (by decide)

theorem assocGet_assocSet (l : List (String × Val)) (k k' : String) (v : Val) :
    assocGet (assocSet l k v) k' = if k = k' then some v else assocGet l k' := by
  induction l with
  | nil =>
      by_cases h : k = k' <;> simp [assocSet, assocGet, h]
  | cons hd tl ih =>
      obtain ⟨hk, hv⟩ := hd
      by_cases h1 : hk = k
      · subst h1
        by_cases h2 : hk = k' <;> simp [assocSet, assocGet, h2]
      · by_cases h2 : hk = k'
        · subst h2
          have : ¬ k = hk := fun h => h1 h.symm
          simp [assocSet, assocGet, h1, this]
        · simp [assocSet, assocGet, h1, h2, ih]

theorem pyGet_assocSet_ne (l : List (String × Val)) (k k' : String) (v : Val)
    (h : k ≠ k') : pyGet (assocSet l k v) k' = pyGet l k' := by
  unfold pyGet
  rw [assocGet_assocSet, if_neg h]

theorem pyGetD_assocSet_ne (l : List (String × Val)) (k k' : String) (v d : Val)
    (h : k ≠ k') : pyGetD (assocSet l k v) k' d = pyGetD l k' d := by
  unfold pyGetD
  rw [assocGet_assocSet, if_neg h]

/-- `_check_budget` either leaves the record alone or records the new
`last_spent` baseline inside `budget` — nothing else. -/
theorem checkBudget_shape (kvs : List (String × Val)) (errs : List String)
    (kvs' : List (String × Val)) (h : checkBudget kvs = some (errs, kvs')) :
    kvs' = kvs
    ∨ ∃ b, pyGet kvs "budget" = Val.vdict b
        ∧ kvs' = assocSet kvs "budget"
            (.vdict (assocSet b "last_spent" (pyGet b "spent"))) := by
  unfold checkBudget at h
  cases hb : pyGet kvs "budget" <;> rw [hb] at h
  case vdict b =>
    dsimp only at h
    by_cases hsp : pyGet b "spent" = Val.vnull
    · rw [if_pos hsp] at h
      cases Option.some.inj h
      exact Or.inl rfl
    · rw [if_neg hsp] at h
      split at h
      · exact Option.noConfusion h
      · split at h
        · exact Option.noConfusion h
        · cases Option.some.inj h
          exact Or.inr ⟨b, rfl, rfl⟩
  all_goals
    dsimp only at h
    cases Option.some.inj h
    exact Or.inl rfl

/-- `_check_escalation` either leaves the record alone or records the new
`escalation_previous` baseline — nothing else. -/
theorem checkEscalation_shape (kvs : List (String × Val)) (errs : List String)
    (kvs' : List (String × Val)) (h : checkEscalation kvs = some (errs, kvs')) :
    kvs' = kvs
    ∨ kvs' = assocSet kvs "escalation_previous" (pyGet kvs "escalation_level") := by
  unfold checkEscalation at h
  by_cases hc : pyGet kvs "escalation_level" = Val.vnull
  · rw [if_pos hc] at h
    cases Option.some.inj h
    exact Or.inl rfl
  · rw [if_neg hc] at h
    split at h
    · exact Option.noConfusion h
    · cases Option.some.inj h
      exact Or.inr rfl

theorem assocGet_of_pyGet_dict (l : List (String × Val)) (k : String)
    (b : List (String × Val)) (h : pyGet l k = Val.vdict b) :
    assocGet l k = some (Val.vdict b) := by
  unfold pyGet at h
  cases hg : assocGet l k with
  | none => rw [hg] at h; exact absurd h (by simp)
  | some v => rw [hg] at h; simp at h; rw [h]

/-- C9: `validate_state` mutates only its own bookkeeping fields
(`budget.last_spent` and `escalation_previous`); every other top-level
field, and every other field inside `budget`, is unchanged. -/
theorem c9_frame (s : Val) (errs : List String) (s' : Val)
    (h : validateState s = some (errs, s')) :
    (∀ k, k ≠ "budget" → k ≠ "escalation_previous" →
      stateLookup s' k = stateLookup s k)
    ∧ (∀ k, k ≠ "last_spent" →
        ((stateLookup s' "budget").bind fun b => stateLookup b k)
          = ((stateLookup s "budget").bind fun b => stateLookup b k))
    ∧ (stateLookup s' "budget" = stateLookup s "budget"
        ∨ ∃ bkvs, stateLookup s "budget" = some (.vdict bkvs)
            ∧ stateLookup s' "budget"
              = some (.vdict (assocSet bkvs "last_spent" (pyGet bkvs "spent")))) := by
  rcases s with _ | _ | _ | _ | _ | kvs <;> try exact Option.noConfusion h
  unfold validateState at h
  dsimp only at h
  cases hcb : checkBudget kvs with
  | none => rw [hcb] at h; exact Option.noConfusion h
  | some p1 =>
  obtain ⟨berrs, kvs₁⟩ := p1
  rw [hcb] at h
  dsimp only at h
  cases hce : checkEscalation kvs₁ with
  | none => rw [hce] at h; exact Option.noConfusion h
  | some p2 =>
  obtain ⟨eerrs, kvs₂⟩ := p2
  rw [hce] at h
  dsimp only at h
  cases hcf : checkFindings kvs₂ with
  | none => rw [hcf] at h; exact Option.noConfusion h
  | some ferrs =>
  rw [hcf] at h
  dsimp only at h
  cases Option.some.inj h
  have hb1 := checkBudget_shape kvs berrs kvs₁ hcb
  have hb2 := checkEscalation_shape kvs₁ eerrs kvs₂ hce
  have hbudget : assocGet kvs₂ "budget" = assocGet kvs₁ "budget" := by
    rcases hb2 with rfl | rfl
    · rfl
    · rw [assocGet_assocSet, if_neg (by decide)]
  refine ⟨?_, ?_, ?_⟩
  · intro k hk1 hk2
    show assocGet kvs₂ k = assocGet kvs k
    have h2 : assocGet kvs₂ k = assocGet kvs₁ k := by
      rcases hb2 with rfl | rfl
      · rfl
      · rw [assocGet_assocSet, if_neg (fun he => hk2 he.symm)]
    rw [h2]
    rcases hb1 with rfl | ⟨b, hgb, rfl⟩
    · rfl
    · rw [assocGet_assocSet, if_neg (fun he => hk1 he.symm)]
  · intro k hk
    show (assocGet kvs₂ "budget").bind _ = (assocGet kvs "budget").bind _
    rw [hbudget]
    rcases hb1 with rfl | ⟨b, hgb, rfl⟩
    · rfl
    · rw [assocGet_assocSet, if_pos rfl, assocGet_of_pyGet_dict kvs "budget" b hgb]
      show stateLookup (Val.vdict (assocSet b "last_spent" (pyGet b "spent"))) k
        = stateLookup (Val.vdict b) k
      show assocGet (assocSet b "last_spent" (pyGet b "spent")) k = assocGet b k
      rw [assocGet_assocSet, if_neg (fun he => hk he.symm)]
  · show assocGet kvs₂ "budget" = assocGet kvs "budget"
      ∨ ∃ bkvs, assocGet kvs "budget" = some (.vdict bkvs)
          ∧ assocGet kvs₂ "budget"
            = some (.vdict (assocSet bkvs "last_spent" (pyGet bkvs "spent")))
    rw [hbudget]
    rcases hb1 with rfl | ⟨b, hgb, rfl⟩
    · exact Or.inl rfl
    · refine Or.inr ⟨b, assocGet_of_pyGet_dict kvs "budget" b hgb, ?_⟩
      rw [assocGet_assocSet, if_pos rfl]

theorem c9_frame_witness :
    (∀ k, k ≠ "budget" → k ≠ "escalation_previous" →
      stateLookup c9WStateAfter k = stateLookup c9WState k)
    ∧ (∀ k, k ≠ "last_spent" →
        ((stateLookup c9WStateAfter "budget").bind fun b => stateLookup b k)
          = ((stateLookup c9WState "budget").bind fun b => stateLookup b k))
    ∧ (stateLookup c9WStateAfter "budget" = stateLookup c9WState "budget"
        ∨ ∃ bkvs, stateLookup c9WState "budget" = some (.vdict bkvs)
            ∧ stateLookup c9WStateAfter "budget"
              = some (.vdict (assocSet bkvs "last_spent" (pyGet bkvs "spent")))) :=
  c9_frame c9WState [] c9WStateAfter (by decide)

theorem pyLt_vnull_left (b : Val) : pyLt Val.vnull b = none := by
  cases b <;> rfl

theorem pyLt_vnull_right (a : Val) : pyLt a Val.vnull = none := by
  cases a <;> rfl

/-- String-valued budget fields are compared, not rejected: on
`{"budget": {"spent": "1", "last_spent": "2"}, "capabilities": {...}}`
`validate_state` returns the budget-decrease error (CPython compares
same-type strings lexicographically). -/
theorem validateState_string_budget :
    (validateState (.vdict [("budget",
        .vdict [("spent", .vstr "1"), ("last_spent", .vstr "2")]),
      ("capabilities",
        .vdict [("executed", .vlist []), ("skipped", .vlist [])])])).map Prod.fst
      = some ["Budget spent decreased from previous value."] := by decide

theorem checkBudget_errs_iff (kvs : List (String × Val)) (errs : List String)
    (kvs' : List (String × Val)) (h : checkBudget kvs = some (errs, kvs')) :
    errs = [] ↔ specBudgetOk kvs := by
  unfold specBudgetOk budgetSpecOf
  unfold checkBudget at h
  cases hb : pyGet kvs "budget" <;> rw [hb] at h
  case vdict b =>
    dsimp only at h
    by_cases hsp : pyGet b "spent" = Val.vnull
    · rw [if_pos hsp] at h
      cases Option.some.inj h
      simp only [eq_self_iff_true, true_iff]
      intro b' hb'
      cases Val.vdict.inj hb'
      rw [hsp]
      refine ⟨by rw [pyLt_vnull_left]; simp, ?_⟩
      unfold pyGt
      rw [pyLt_vnull_right]
      simp
    · rw [if_neg hsp] at h
      cases heq1 : (if pyGetD b "last_spent" (pyGet b "spent") ≠ Val.vnull
          then pyLt (pyGet b "spent") (pyGetD b "last_spent" (pyGet b "spent"))
          else some false) with
      | none => rw [heq1] at h; exact Option.noConfusion h
      | some dec =>
      rw [heq1] at h
      dsimp only at h
      cases heq2 : (if pyGet b "cap" ≠ Val.vnull
          then pyGt (pyGet b "spent") (pyGet b "cap") else some false) with
      | none => rw [heq2] at h; exact Option.noConfusion h
      | some exc =>
      rw [heq2] at h
      dsimp only at h
      cases Option.some.inj h
      constructor
      · intro hnil
        have hdec : dec = false := by
          cases dec
          · rfl
          · simp at hnil
        have hexc : exc = false := by
          cases exc
          · rfl
          · simp [hdec] at hnil
        subst hdec
        subst hexc
        intro b' hb'
        cases Val.vdict.inj hb'
        constructor
        · by_cases hln : pyGetD b "last_spent" (pyGet b "spent") ≠ Val.vnull
          · rw [if_pos hln] at heq1
            rw [heq1]
            simp
          · rw [not_not] at hln
            rw [hln, pyLt_vnull_right]
            simp
        · by_cases hcn : pyGet b "cap" ≠ Val.vnull
          · rw [if_pos hcn] at heq2
            rw [heq2]
            simp
          · rw [not_not] at hcn
            rw [hcn]
            unfold pyGt
            rw [pyLt_vnull_left]
            simp
      · intro hs
        obtain ⟨h1, h2⟩ := hs b rfl
        have hdec : dec = false := by
          by_cases hln : pyGetD b "last_spent" (pyGet b "spent") ≠ Val.vnull
          · rw [if_pos hln] at heq1
            rw [heq1] at h1
            cases dec
            · rfl
            · exact absurd rfl h1
          · rw [if_neg hln] at heq1
            exact (Option.some.inj heq1).symm
        have hexc : exc = false := by
          by_cases hcn : pyGet b "cap" ≠ Val.vnull
          · rw [if_pos hcn] at heq2
            rw [heq2] at h2
            cases exc
            · rfl
            · exact absurd rfl h2
          · rw [if_neg hcn] at heq2
            exact (Option.some.inj heq2).symm
        subst hdec
        subst hexc
        rfl
  all_goals
    dsimp only at h
    cases Option.some.inj h
    simp only [eq_self_iff_true, true_iff]
    intro b' hb'
    exact absurd hb' (by simp)

theorem checkEscalation_errs_iff (kvs : List (String × Val)) (errs : List String)
    (kvs' : List (String × Val)) (h : checkEscalation kvs = some (errs, kvs')) :
    errs = [] ↔ specEscalationOk kvs := by
  unfold specEscalationOk escSpecOf
  unfold checkEscalation at h
  by_cases hc : pyGet kvs "escalation_level" = Val.vnull
  · rw [if_pos hc] at h
    cases Option.some.inj h
    simp only [eq_self_iff_true, true_iff]
    rw [hc]
    exact Or.inl (by rw [pyLt_vnull_left]; simp)
  · rw [if_neg hc] at h
    cases hlt : pyLt (pyGet kvs "escalation_level")
        (pyGetD kvs "escalation_previous" (pyGet kvs "escalation_level")) with
    | none => rw [hlt] at h; exact Option.noConfusion h
    | some dec =>
    rw [hlt] at h
    dsimp only at h
    cases Option.some.inj h
    constructor
    · intro hnil
      by_cases htr : (pyGet kvs "escalation_reason").truthy = true
      · exact Or.inr htr
      · refine Or.inl ?_
        cases hdec : dec with
        | false => simp
        | true =>
            rw [hdec] at hnil
            simp [htr] at hnil
    · intro hs
      rcases hs with hne | htr
      · have hdec : dec = false := by
          cases dec
          · rfl
          · exact absurd rfl hne
        rw [hdec]
        rfl
      · rw [htr]
        simp

theorem pyGet_congr (l l' : List (String × Val)) (k : String)
    (h : assocGet l' k = assocGet l k) : pyGet l' k = pyGet l k := by
  unfold pyGet
  rw [h]

theorem pyGetD_congr (l l' : List (String × Val)) (k : String) (d : Val)
    (h : assocGet l' k = assocGet l k) : pyGetD l' k d = pyGetD l k d := by
  unfold pyGetD
  rw [h]

theorem findingErrsAt_nil_iff (idx : Nat) (f : Val) :
    findingErrsAt idx f = [] ↔ specFindingOk f := by
  cases f with
  | vdict d =>
      cases h1 : assocGet d "source_tool" <;>
      cases h2 : assocGet d "artifact_paths" <;>
      cases h3 : assocGet d "confidence" <;>
        simp [findingErrsAt, specFindingOk, h1, h2, h3, List.filter]
  | vnull => simp [findingErrsAt, specFindingOk]
  | vbool b => simp [findingErrsAt, specFindingOk]
  | vint n => simp [findingErrsAt, specFindingOk]
  | vstr s => simp [findingErrsAt, specFindingOk]
  | vlist xs => simp [findingErrsAt, specFindingOk]

theorem findingErrsFrom_nil_iff (idx : Nat) (fs : List Val) :
    findingErrsFrom idx fs = [] ↔ ∀ f ∈ fs, specFindingOk f := by
  induction fs generalizing idx with
  | nil => simp [findingErrsFrom]
  | cons f rest ih =>
      simp [findingErrsFrom, findingErrsAt_nil_iff, ih]

theorem checkFindings_errs_iff (kvs : List (String × Val)) (fe : List String)
    (h : checkFindings kvs = some fe) :
    fe = [] ↔ ∀ g ∈ collectedForInvariants kvs, specFindingOk g := by
  unfold collectedForInvariants
  unfold checkFindings at h
  cases hs : pyGetD kvs "static_scan" (.vdict []) <;> rw [hs] at h
  case vdict s =>
    dsimp only at h
    cases Option.some.inj h
    dsimp only
    exact findingErrsFrom_nil_iff 0 _
  all_goals exact Option.noConfusion h

theorem capBucketErrs_cons (bucket : String) (e : Val) (rest : List Val) :
    capBucketErrs bucket (.vlist (e :: rest))
      = capBucketErrs bucket (.vlist [e]) ++ capBucketErrs bucket (.vlist rest) := by
  simp [capBucketErrs]

theorem capBucketErrs_singleton_iff (bucket : String) (e : Val) :
    capBucketErrs bucket (.vlist [e]) = [] ↔ specCapEntryOk e := by
  cases e with
  | vdict d =>
      cases h1 : assocGet d "name" <;> cases h2 : assocGet d "reason" <;>
        simp [capBucketErrs, specCapEntryOk, h1, h2]
  | vnull => simp [capBucketErrs, specCapEntryOk]
  | vbool b => simp [capBucketErrs, specCapEntryOk]
  | vint n => simp [capBucketErrs, specCapEntryOk]
  | vstr s => simp [capBucketErrs, specCapEntryOk]
  | vlist xs => simp [capBucketErrs, specCapEntryOk]

theorem capBucketErrs_nil_iff (bucket : String) (v : Val) :
    capBucketErrs bucket v = [] ↔ specBucketOk v := by
  cases v with
  | vlist entries =>
      have hlist : ∀ es : List Val,
          capBucketErrs bucket (.vlist es) = [] ↔ ∀ e ∈ es, specCapEntryOk e := by
        intro es
        induction es with
        | nil => simp [capBucketErrs]
        | cons e rest ih =>
            rw [capBucketErrs_cons, List.append_eq_nil, ih, capBucketErrs_singleton_iff]
            simp
      rw [hlist entries]
      simp [specBucketOk]
  | vnull => simp [capBucketErrs, specBucketOk]
  | vbool b => simp [capBucketErrs, specBucketOk]
  | vint n => simp [capBucketErrs, specBucketOk]
  | vstr s => simp [capBucketErrs, specBucketOk]
  | vdict d => simp [capBucketErrs, specBucketOk]

theorem checkCapabilities_nil_iff (kvs : List (String × Val)) :
    checkCapabilities kvs = [] ↔ specCapsOk kvs := by
  unfold checkCapabilities specCapsOk
  cases hc : pyGet kvs "capabilities" with
  | vdict c =>
      dsimp only
      by_cases hm : ((assocGet c "executed").isNone || (assocGet c "skipped").isNone) = true
      · rw [if_pos hm]
        simp only [Bool.or_eq_true] at hm
        constructor
        · intro habs; exact absurd habs (by simp)
        · rintro ⟨c', hc', he, hs, -, -⟩
          cases Val.vdict.inj hc'
          rcases hm with h1 | h1
          · rw [Option.isNone_iff_eq_none.mp h1] at he
            exact absurd he (by simp)
          · rw [Option.isNone_iff_eq_none.mp h1] at hs
            exact absurd hs (by simp)
      · rw [if_neg hm]
        rw [List.append_eq_nil, capBucketErrs_nil_iff, capBucketErrs_nil_iff]
        constructor
        · rintro ⟨h1, h2⟩
          refine ⟨c, rfl, ?_, ?_, h1, h2⟩
          · cases hx : assocGet c "executed" with
            | none => rw [hx] at hm; simp at hm
            | some v => simp
          · cases hx : assocGet c "skipped" with
            | none => rw [hx] at hm; simp at hm
            | some v => simp
        · rintro ⟨c', hc', -, -, h1, h2⟩
          cases Val.vdict.inj hc'
          exact ⟨h1, h2⟩
  | vnull => simp
  | vbool b => simp
  | vint n => simp
  | vstr s => simp
  | vlist xs => simp

/-- C3: on a mapping state, `validate_state` returns `[]` exactly when the
budget, escalation, finding-provenance and capability-ledger conditions all
hold — with the capability buckets required to be **lists** of well-formed
entries (`specValidState`), not arbitrary collections. -/
theorem c3_amended (kvs : List (String × Val)) (errs : List String) (s' : Val)
    (h : validateState (.vdict kvs) = some (errs, s')) :
    errs = [] ↔ specValidState kvs := by
  unfold validateState at h
  dsimp only at h
  cases hb : checkBudget kvs with
  | none => rw [hb] at h; exact Option.noConfusion h
  | some p =>
    obtain ⟨be, kvs₁⟩ := p
    rw [hb] at h
    dsimp only at h
    cases he : checkEscalation kvs₁ with
    | none => rw [he] at h; exact Option.noConfusion h
    | some q =>
      obtain ⟨ee, kvs₂⟩ := q
      rw [he] at h
      dsimp only at h
      cases hf : checkFindings kvs₂ with
      | none => rw [hf] at h; exact Option.noConfusion h
      | some fe =>
        rw [hf] at h
        dsimp only at h
        cases Option.some.inj h
        have hg1 : ∀ k, k ≠ "budget" → assocGet kvs₁ k = assocGet kvs k := by
          rcases checkBudget_shape kvs be kvs₁ hb with rfl | ⟨b, hbd, rfl⟩
          · intro k _; rfl
          · intro k hk
            rw [assocGet_assocSet, if_neg (fun hh => hk hh.symm)]
        have hg2 : ∀ k, k ≠ "budget" → k ≠ "escalation_previous" →
            assocGet kvs₂ k = assocGet kvs k := by
          rcases checkEscalation_shape kvs₁ ee kvs₂ he with rfl | rfl
          · intro k hk _; exact hg1 k hk
          · intro k hk hk2
            rw [assocGet_assocSet, if_neg (fun hh => hk2 hh.symm)]
            exact hg1 k hk
        have hescC : specEscalationOk kvs₁ ↔ specEscalationOk kvs := by
          unfold specEscalationOk
          rw [pyGet_congr kvs kvs₁ "escalation_level" (hg1 _ (by decide)),
            pyGetD_congr kvs kvs₁ "escalation_previous" _ (hg1 _ (by decide)),
            pyGet_congr kvs kvs₁ "escalation_reason" (hg1 _ (by decide))]
        have hcoll : collectedForInvariants kvs₂ = collectedForInvariants kvs := by
          unfold collectedForInvariants
          rw [pyGet_congr kvs kvs₂ "findings" (hg2 _ (by decide) (by decide)),
            pyGetD_congr kvs kvs₂ "static_scan" _ (hg2 _ (by decide) (by decide))]
        have hcaps : checkCapabilities kvs₂ = checkCapabilities kvs := by
          unfold checkCapabilities
          rw [pyGet_congr kvs kvs₂ "capabilities" (hg2 _ (by decide) (by decide))]
        unfold specValidState
        simp only [List.append_eq_nil]
        rw [checkBudget_errs_iff kvs be kvs₁ hb,
          checkEscalation_errs_iff kvs₁ ee kvs₂ he, hescC,
          checkFindings_errs_iff kvs₂ fe hf, hcoll,
          hcaps, checkCapabilities_nil_iff kvs]
        simp only [and_assoc]

/-- C3 (counterexample to the claim as stated): a state whose capability
buckets are (empty) mappings satisfies every condition the claim lists —
the buckets "exist" as collections and trivially have well-formed entries —
yet `validate_state` returns two errors, because the code insists the
buckets be lists. -/
theorem c3_counterexample :
    validateState c3CState
      = some (["Capabilities executed is not a list.",
               "Capabilities skipped is not a list."], c3CState)
    ∧ claimValidState c3CKvs := by
  refine ⟨by decide, ?_, ?_, ?_, ?_⟩
  · intro b hb
    rw [show pyGet c3CKvs "budget" = Val.vnull from by decide] at hb
    exact Val.noConfusion hb
  · exact Or.inl (by decide)
  · intro f hf
    rw [show collectedForInvariants c3CKvs = [] from by decide] at hf
    exact absurd hf (List.not_mem_nil f)
  · exact ⟨[("executed", .vdict []), ("skipped", .vdict [])], by decide, by decide,
      by decide, Or.inr ⟨[], by decide⟩, Or.inr ⟨[], by decide⟩⟩

theorem c3_amended_witness :
    ([] : List String) = [] ↔ specValidState c3WKvs :=
  c3_amended c3WKvs [] c3WOut (by decide)

/-- C5 (counterexample to the claim as stated): on a low-severity,
high-confidence, reproducible finding with no resolvable artifact the code
computes `score_total = 1 + 3 + 0 + 1 = 5`, while the claim's three-term
sum gives `1 + 3 + 0 = 4`: the reproducibility point, already inside the
evidence points, is added a second time. -/
theorem c5_counterexample :
    (scoreFindingEntry defaultWeights (fun _ => false) "" false none c5Finding).map
        (fun e => e.score_total) = some 5
    ∧ claimScoreTotal (fun _ => false) "" false c5Finding = some 4 :=
  ⟨rfl, rfl⟩

theorem heuristicSeverity_ne_empty (c : String) : heuristicSeverity c ≠ "" := by
  unfold heuristicSeverity
  dsimp only
  split
  · decide
  · split
    · decide
    · split
      · decide
      · decide

/-- C5: the total a scoreboard entry records is a FOUR-term sum —
severity weight, confidence weight, evidence points, plus a separate
reproducibility point that the evidence points already contain. -/
theorem c5_amended (fsExists : String → Bool) (runRoot : String)
    (skippedAny : Bool) (prev : Option (String → Option Int))
    (d : List (String × Val)) (e : ScoreEntry)
    (h : scoreFindingEntry defaultWeights fsExists runRoot skippedAny prev d = some e) :
    e.score_total = weightGet defaultWeights.severity e.severity
      + weightGet defaultWeights.confidence e.confidence
      + e.evidence_points
      + (if e.reproducible then 1 else 0) := by
  unfold scoreFindingEntry at h
  cases hev : evidenceStrength defaultWeights fsExists runRoot skippedAny d with
  | none => rw [hev] at h; exact Option.noConfusion h
  | some p =>
    obtain ⟨ev, bucket⟩ := p
    rw [hev] at h
    dsimp only at h
    cases hfid : findingIdOf d with
    | none => rw [hfid] at h; exact Option.noConfusion h
    | some fid =>
      rw [hfid] at h
      dsimp only at h
      cases Option.some.inj h
      have hsev : (if normalizeLevel (pyOr (pyGet d "severity") (pyGet d "impact")) = ""
          then heuristicSeverity (pyStr (pyGetD d "category" (.vstr "unknown")))
          else normalizeLevel (pyOr (pyGet d "severity") (pyGet d "impact"))) ≠ "" := by
        split
        · exact heuristicSeverity_ne_empty _
        · next hne => exact hne
      have hconf : (if normalizeLevel (pyGet d "confidence") = "" then "unknown"
          else normalizeLevel (pyGet d "confidence")) ≠ "" := by
        split
        · decide
        · next hne => exact hne
      dsimp only
      rw [if_neg hsev, if_neg hconf]

theorem c5_amended_witness :
    c5Entry.score_total = weightGet defaultWeights.severity c5Entry.severity
      + weightGet defaultWeights.confidence c5Entry.confidence
      + c5Entry.evidence_points
      + (if c5Entry.reproducible then 1 else 0) :=
  c5_amended (fun _ => false) "" false none c5Finding c5Entry rfl

/-- C8 (counterexample to the claim as stated): the hash input joins the
triple with `"|"` without escaping, so the distinct triples
`("a|b", "c", "p:")` and `("a", "b|c", "p:")` collide on the raw string
`"a|b|c|p:"` and receive the same id although title and category differ. -/
theorem c8_counterexample :
    findingIdOf c8D1 = findingIdOf c8D2
    ∧ findingTitle c8D1 ≠ findingTitle c8D2
    ∧ pyStr (pyGetD c8D1 "category" (.vstr "unknown"))
        ≠ pyStr (pyGetD c8D2 "category" (.vstr "unknown"))
    ∧ findingLocation c8D1 = findingLocation c8D2 := by
  refine ⟨?_, by decide, by decide, by decide⟩
  have h : findingRaw c8D1 = findingRaw c8D2 := by decide
  unfold findingIdOf
  rw [h]

theorem pipeSplit (xs : List Char) :
    ∀ (ys zs ws : List Char), '|' ∉ xs → '|' ∉ ys →
      xs ++ '|' :: zs = ys ++ '|' :: ws → xs = ys ∧ zs = ws := by
  induction xs with
  | nil =>
      intro ys zs ws _ hy h
      cases ys with
      | nil => simpa using h
      | cons y ys' =>
          rw [List.nil_append, List.cons_append] at h
          cases List.cons.inj h |>.1
          exact absurd (List.mem_cons_self _ _) hy
  | cons x xs' ih =>
      intro ys zs ws hx hy h
      cases ys with
      | nil =>
          rw [List.cons_append, List.nil_append] at h
          cases List.cons.inj h |>.1
          exact absurd (List.mem_cons_self _ _) hx
      | cons y ys' =>
          rw [List.cons_append, List.cons_append] at h
          obtain ⟨rfl, h2⟩ := List.cons.inj h
          obtain ⟨h3, h4⟩ := ih ys' zs ws
            (fun hm => hx (List.mem_cons_of_mem _ hm))
            (fun hm => hy (List.mem_cons_of_mem _ hm)) h2
          exact ⟨by rw [h3], h4⟩

theorem rawTriple_inj (t1 c1 l1 t2 c2 l2 : String)
    (ht1 : '|' ∉ t1.data) (hc1 : '|' ∉ c1.data)
    (ht2 : '|' ∉ t2.data) (hc2 : '|' ∉ c2.data)
    (h : t1 ++ "|" ++ c1 ++ "|" ++ l1 = t2 ++ "|" ++ c2 ++ "|" ++ l2) :
    t1 = t2 ∧ c1 = c2 ∧ l1 = l2 := by
  have hd := congrArg String.data h
  simp only [String.data_append, List.append_assoc, List.singleton_append] at hd
  obtain ⟨e1, e2⟩ := pipeSplit t1.data t2.data _ _ ht1 ht2 hd
  obtain ⟨e3, e4⟩ := pipeSplit c1.data c2.data _ _ hc1 hc2 e2
  exact ⟨String.ext e1, String.ext e3, String.ext e4⟩

/-- C8: the id is a deterministic function of the
(title, category, location) triple — equal triples give equal ids, across
any two finding dicts; and when titles and categories are pipe-free the
pipe-joined hash input is itself injective in the triple, so distinct
triples feed distinct strings to the hash.  (Distinctness of the truncated
12-hex-digit digests would additionally require SHA-256 to be
collision-free on those inputs, which is outside what the code
guarantees.) -/
theorem c8_amended (d1 d2 : List (String × Val)) (l1 l2 : String)
    (hl1 : findingLocation d1 = some l1) (hl2 : findingLocation d2 = some l2)
    (ht1 : '|' ∉ (findingTitle d1).data)
    (hc1 : '|' ∉ (pyStr (pyGetD d1 "category" (.vstr "unknown"))).data)
    (ht2 : '|' ∉ (findingTitle d2).data)
    (hc2 : '|' ∉ (pyStr (pyGetD d2 "category" (.vstr "unknown"))).data) :
    (findingTitle d1 = findingTitle d2
      ∧ pyStr (pyGetD d1 "category" (.vstr "unknown"))
          = pyStr (pyGetD d2 "category" (.vstr "unknown"))
      ∧ l1 = l2
      → findingIdOf d1 = findingIdOf d2)
    ∧ (findingRaw d1 = findingRaw d2
      → findingTitle d1 = findingTitle d2
        ∧ pyStr (pyGetD d1 "category" (.vstr "unknown"))
            = pyStr (pyGetD d2 "category" (.vstr "unknown"))
        ∧ l1 = l2) := by
  constructor
  · rintro ⟨ht, hc, hl⟩
    unfold findingIdOf findingRaw
    rw [ht, hc, hl1, hl2, hl]
  · intro hr
    unfold findingRaw at hr
    rw [hl1, hl2] at hr
    simp only [Option.map_some'] at hr
    exact rawTriple_inj _ _ _ _ _ _ ht1 hc1 ht2 hc2 (Option.some.inj hr)

theorem c8_amended_witness : findingIdOf c8W1 = findingIdOf c8W2 :=
  (c8_amended c8W1 c8W2 "p:" "p:" (by decide) (by decide) (by decide) (by decide)
    (by decide) (by decide)).1 ⟨by decide, by decide, rfl⟩

theorem optionMapM_length (f : α → Option β) :
    ∀ (l : List α) (r : List β), optionMapM f l = some r → r.length = l.length
  | [], r, h => by cases Option.some.inj h; rfl
  | x :: xs, r, h => by
      unfold optionMapM at h
      cases hx : f x with
      | none => rw [hx] at h; exact Option.noConfusion h
      | some y =>
          rw [hx] at h
          dsimp only at h
          cases hxs : optionMapM f xs with
          | none => rw [hxs] at h; exact Option.noConfusion h
          | some ys =>
              rw [hxs] at h
              dsimp only at h
              cases Option.some.inj h
              simp [optionMapM_length f xs ys hxs]

theorem filterMap_dict_length (w : ScoreWeights) :
    ∀ fs : List Val,
      (fs.filterMap fun f => match f with
        | Val.vdict d => some (scoredItemOf w f d)
        | _ => none).length
      = (fs.filterMap fun f => match f with
          | Val.vdict d => some d
          | _ => none).length
  | [] => rfl
  | f :: rest => by
      cases f <;> simp [List.filterMap_cons, filterMap_dict_length w rest]

/-- C10 (counterexample to the claim as stated): the state holds a single
mapping-shaped finding whose `artifact_paths` is the truthy non-iterable
`1`; `Path`-resolution inside `_artifact_paths_valid` raises, so
`build_scoreboard` raises (returns no scoreboard) instead of producing one
entry per mapping-shaped finding. -/
theorem c10_counterexample :
    buildScoreboard defaultWeights (fun _ => false) "" none c10State = none
    ∧ collectFindings c10State = some [.vdict [("artifact_paths", .vint 1)]] :=
  ⟨by decide, by decide⟩

/-- C10: `score_findings` is total and scores exactly the mapping-shaped
entries of any findings list; and whenever `build_scoreboard` does return
a scoreboard, it contains exactly one entry per mapping-shaped collected
finding.  (`build_scoreboard` itself is not total — see the
counterexample.) -/
theorem c10_amended (w : ScoreWeights) (fsExists : String → Bool)
    (runRoot : String) (prev : Option (String → Option Int))
    (findings : List Val) (state : Val) (sb : Scoreboard)
    (hf : collectFindings state = some findings)
    (h : buildScoreboard w fsExists runRoot prev state = some sb) :
    (∀ fs : List Val, (scoreFindings fs w).length
        = (fs.filterMap fun f => match f with
            | Val.vdict d => some d
            | _ => none).length)
    ∧ sb.entries.length
        = (findings.filterMap fun f => match f with
            | Val.vdict d => some d
            | _ => none).length := by
  constructor
  · intro fs
    unfold scoreFindings sortPyKeys
    rw [(sortByLe_perm _ _).length_eq]
    exact filterMap_dict_length w fs
  · unfold buildScoreboard at h
    rw [hf] at h
    dsimp only at h
    cases state with
    | vdict kvs =>
      dsimp only at h
      cases hcap : pyGetD kvs "capabilities"
          (.vdict [("executed", .vlist []), ("skipped", .vlist [])]) <;>
        rw [hcap] at h <;> dsimp only at h
      case vdict c =>
        cases hsr : iterElems (pyGetD c "skipped" (.vlist [])) with
        | none => rw [hsr] at h; exact Option.noConfusion h
        | some skippedRaw =>
        rw [hsr] at h
        dsimp only at h
        cases hsn : skippedNamesOf skippedRaw with
        | none => rw [hsn] at h; exact Option.noConfusion h
        | some names =>
        rw [hsn] at h
        dsimp only at h
        cases hent : optionMapM (scoreFindingEntry w fsExists runRoot
            (names.any fun n => match n with
              | Val.vstr s => skippedCapabilityNames.contains s
              | _ => false) prev)
            (findings.filterMap fun f => match f with
              | Val.vdict d => some d
              | _ => none) with
        | none => rw [hent] at h; exact Option.noConfusion h
        | some entries =>
        rw [hent] at h
        dsimp only at h
        cases Option.some.inj h
        dsimp only
        unfold sortPyKeys
        rw [(sortByLe_perm _ _).length_eq]
        exact optionMapM_length _ _ _ hent
      all_goals exact Option.noConfusion h
    | vnull => exact Option.noConfusion h
    | vbool b => exact Option.noConfusion h
    | vint n => exact Option.noConfusion h
    | vstr s => exact Option.noConfusion h
    | vlist xs => exact Option.noConfusion h

theorem c10_amended_witness :
    (∀ fs : List Val, (scoreFindings fs defaultWeights).length
        = (fs.filterMap fun f => match f with
            | Val.vdict d => some d
            | _ => none).length)
    ∧ (Scoreboard.mk 0 0 (.vdict [("executed", .vlist []), ("skipped", .vlist [])])
        []).entries.length
        = (([Val.vint 3]).filterMap fun f => match f with
            | Val.vdict d => some d
            | _ => none).length :=
  c10_amended defaultWeights (fun _ => false) "" none [Val.vint 3] c10WState
    (Scoreboard.mk 0 0 (.vdict [("executed", .vlist []), ("skipped", .vlist [])]) [])
    rfl rfl
